import Mathlib

/-!
Shallow embedding of the incremental-build orchestration and live-update
fan-out engine of `packages/next/src/server/dev/hot-reloader-turbopack.ts`.

JavaScript `Map` objects are modelled as insertion-ordered association lists
(`List (κ × α)`) and `Set` objects as insertion-ordered duplicate-free lists.
External collaborators (the Turbopack build engine, the filesystem, ANSI
color helpers, the babel code-frame printer, the magic-identifier decoder)
are parameters of the model: the engine is a function from endpoint ids to
written-endpoint results, and the string-formatting collaborators are
gathered in an `Externals` record.
-/

namespace HotReloader

/-! ## JavaScript collection primitives (Map / Set as ordered assoc lists) -/

/-- `Map.prototype.set`: replace in place when the key is present, else append. -/
def mapSet {κ α : Type} [BEq κ] (m : List (κ × α)) (k : κ) (v : α) : List (κ × α) :=
  if m.any (fun p => p.1 == k) then
    m.map (fun p => if p.1 == k then (k, v) else p)
  else
    m ++ [(k, v)]

/-- `Map.prototype.get`. -/
def mapGet {κ α : Type} [BEq κ] (m : List (κ × α)) (k : κ) : Option α :=
  (m.find? (fun p => p.1 == k)).map (fun p => p.2)

/-- `Map.prototype.has`. -/
def mapHas {κ α : Type} [BEq κ] (m : List (κ × α)) (k : κ) : Bool :=
  m.any (fun p => p.1 == k)

/-- `Map.prototype.delete`. -/
def mapDelete {κ α : Type} [BEq κ] (m : List (κ × α)) (k : κ) : List (κ × α) :=
  m.filter (fun p => !(p.1 == k))

/-- `Set.prototype.add`: append when absent. -/
def setAdd {α : Type} [BEq α] (s : List α) (k : α) : List α :=
  if s.any (fun x => x == k) then s else s ++ [k]

/-- `Set.prototype.delete`. -/
def setDelete {α : Type} [BEq α] (s : List α) (k : α) : List α :=
  s.filter (fun x => !(x == k))

/-- `Array.prototype.join` / the separator-join used for thrown messages. -/
def joinSep (sep : String) : List String → String
  | [] => ""
  | [x] => x
  | x :: xs => x ++ sep ++ joinSep sep xs

/-- Split a character list on a nonempty separator, left to right and
non-overlapping (the structural worker behind the string split; `fuel`
bounds the recursion by the input length). -/
def splitOnAuxL (sep : List Char) : Nat → List Char → List Char → List (List Char)
  | _, [], acc => [acc.reverse]
  | 0, l, acc => [acc.reverse ++ l]
  | fuel + 1, c :: rest, acc =>
    if sep.isPrefixOf (c :: rest) then
      acc.reverse :: splitOnAuxL sep fuel ((c :: rest).drop sep.length) []
    else
      splitOnAuxL sep fuel rest (c :: acc)

/-- `String.prototype.split(sep)` with a plain-string separator. -/
def splitOnStr (s sep : String) : List String :=
  if sep == "" then [s]
  else (splitOnAuxL sep.data s.data.length s.data []).map String.mk

/-- `String.prototype.startsWith`. -/
def strStartsWithB (s pre : String) : Bool :=
  pre.data.isPrefixOf s.data

/-- `String.prototype.endsWith`. -/
def strEndsWithB (s suf : String) : Bool :=
  suf.data.reverse.isPrefixOf s.data.reverse

/-- `String.prototype.trim` (ASCII whitespace model). -/
def strTrim (s : String) : String :=
  let ws := fun c => c == ' ' || c == '\n' || c == '\t' || c == '\r'
  String.mk (((s.data.dropWhile ws).reverse.dropWhile ws).reverse)

/-- `String.prototype.replaceAll(pat, rep)` (split on the pattern, re-join). -/
def replaceAllStr (s pat rep : String) : String :=
  joinSep rep (splitOnStr s pat)

/-- `String.prototype.replace(pat, rep)` with a plain-string pattern:
only the first occurrence is replaced. -/
def replaceFirstStr (s pat rep : String) : String :=
  match splitOnStr s pat with
  | [] => s
  | [x] => x
  | x :: xs => x ++ rep ++ joinSep pat xs

/-- `String.prototype.includes`. -/
def containsSubstrB (s pat : String) : Bool :=
  decide ((splitOnStr s pat).length > 1) || pat == ""

/-- Last-write-wins lookup over a sequence of keyed writes (later entries in
the list are later writes). -/
def lastAssoc {α : Type} : List (String × α) → String → Option α
  | [], _ => none
  | p :: t, k =>
    match lastAssoc t k with
    | some v => some v
    | none => if p.1 == k then some p.2 else none

/-! ## Styled strings, issues and their formatting -/

/-- `StyledString` from the engine bindings: the shapes that
`renderStyledStringToErrorAnsi` distinguishes. -/
inductive StyledString : Type where
  | text (value : String)
  | strong (value : String)
  | code (value : String)
  | line (value : List StyledString)
  | stack (value : List StyledString)

/-- External string collaborators: ANSI color helpers from picocolors, the
magic-identifier decoding pass, the babel code-frame printer, and
`JSON.stringify` on styled strings (used only to build issue keys). -/
structure Externals : Type where
  bold : String → String
  red : String → String
  green : String → String
  magenta : String → String
  decodeMagicIdentifiers : String → String
  codeFrame : String → (Nat × Nat) → (Nat × Nat) → String
  stringifyStyled : StyledString → String

mutual

/-- `renderStyledStringToErrorAnsi`. -/
def renderStyledStringToErrorAnsi (ext : Externals) : StyledString → String
  | .text v => ext.decodeMagicIdentifiers v
  | .strong v => ext.bold (ext.red (ext.decodeMagicIdentifiers v))
  | .code v => ext.green (ext.decodeMagicIdentifiers v)
  | .line vs => String.join (renderStyledStringList ext vs)
  | .stack vs => joinSep "\n" (renderStyledStringList ext vs)

/-- `value.map(renderStyledStringToErrorAnsi)` for the `line`/`stack` cases. -/
def renderStyledStringList (ext : Externals) : List StyledString → List String
  | [] => []
  | s :: rest => renderStyledStringToErrorAnsi ext s :: renderStyledStringList ext rest

end

/-- A position inside a source file (`{line, column}`), 0-based as reported
by the engine. -/
structure SourcePosition : Type where
  line : Nat
  column : Nat
deriving DecidableEq

/-- `source.range` of an issue. -/
structure SourceRange : Type where
  start : SourcePosition
  stop : SourcePosition
deriving DecidableEq

/-- `issue.source`: `source.source.content` is flattened into `content`. -/
structure IssueSource : Type where
  range : Option SourceRange
  content : Option String
deriving DecidableEq

/-- An engine diagnostic. -/
structure Issue : Type where
  severity : String
  filePath : String
  title : StyledString
  description : Option StyledString
  source : Option IssueSource
  documentationLink : Option String
  detail : Option StyledString

/-- `issueKey`: `[severity, filePath, JSON.stringify(title),
JSON.stringify(description)].join('-')` (an `undefined` element joins as the
empty string). -/
def issueKey (ext : Externals) (issue : Issue) : String :=
  joinSep "-"
    [issue.severity, issue.filePath, ext.stringifyStyled issue.title,
      (issue.description.map ext.stringifyStyled).getD ""]

/-- `formatIssue`. -/
def formatIssue (ext : Externals) (issue : Issue) : String :=
  let formattedTitle :=
    replaceAllStr (renderStyledStringToErrorAnsi ext issue.title) "\n" "\n    "
  let documentationLink :=
    if containsSubstrB formattedTitle "Module not found" then
      some "https://nextjs.org/docs/messages/module-not-found"
    else issue.documentationLink
  let formattedFilePath :=
    replaceFirstStr
      (replaceAllStr (replaceFirstStr issue.filePath "[project]/" "./") "/./" "/")
      "\\\\?\\" ""
  let message :=
    match issue.source with
    | some src =>
      match src.range with
      | some range =>
        formattedFilePath ++ ":" ++ toString (range.start.line + 1) ++ ":" ++
          toString (range.start.column + 1) ++ "\n" ++ formattedTitle
      | none =>
        if formattedFilePath != "" then formattedFilePath ++ "\n" ++ formattedTitle
        else formattedTitle
    | none =>
      if formattedFilePath != "" then formattedFilePath ++ "\n" ++ formattedTitle
      else formattedTitle
  let message := message ++ "\n"
  let message :=
    match issue.source with
    | some src =>
      match src.range, src.content with
      | some range, some content =>
        if content != "" then
          message ++
            strTrim (ext.codeFrame content (range.start.line + 1, range.start.column + 1)
              (range.stop.line + 1, range.stop.column + 1)) ++ "\n\n"
        else message
      | _, _ => message
    | none => message
  let message :=
    match issue.description with
    | some desc => message ++ renderStyledStringToErrorAnsi ext desc ++ "\n\n"
    | none => message
  let message :=
    match documentationLink with
    | some link => if link != "" then message ++ link ++ "\n\n" else message
    | none => message
  message

/-- The regex test `/(^|\/)node_modules(\/|$)/.test(filePath)`. -/
def isNodeModulesPath (p : String) : Bool :=
  p == "node_modules" || strStartsWithB p "node_modules/" ||
    strEndsWithB p "/node_modules" || containsSubstrB p "/node_modules/"

/-- `TurbopackResult`: the issue payload attached to every engine result. -/
structure TurbopackResult : Type where
  issues : List Issue

/-- Thrown JavaScript errors distinguished by constructor. -/
inductive Thrown : Type where
  | moduleBuildError (msg : String)
  | pageNotFoundError (msg : String)
  | genericError (msg : String)

/-- The issue ledger: unit name to its bucket (issue key to issue). -/
abbrev Issues : Type := List (String × List (String × Issue))

/-- One step of the `for (const issue of result.issues)` loop of
`processIssues`: the accumulator carries the new bucket and the ordered set
of formatted messages of relevant (throw-worthy) issues. -/
def processIssuesStep (ext : Externals)
    (acc : List (String × Issue) × List String) (issue : Issue) :
    List (String × Issue) × List String :=
  if issue.severity != "error" && issue.severity != "fatal" then acc
  else
    let key := issueKey ext issue
    let formatted := formatIssue ext issue
    let newIssues := mapSet acc.1 key issue
    -- Errors in node_modules are shown on the console but never thrown for
    if isNodeModulesPath issue.filePath then (newIssues, acc.2)
    else (newIssues, setAdd acc.2 formatted)

/-- The loop of `processIssues` over the whole result. -/
def processIssuesAccum (ext : Externals) (resultIssues : List Issue) :
    List (String × Issue) × List String :=
  resultIssues.foldl (processIssuesStep ext) ([], [])

/-- `processIssues(issues, name, result, throwIssue)`: the unit's bucket is
replaced wholesale; a `ModuleBuildError` joining the relevant formatted
messages is thrown when requested.  The bucket replacement happens before the
throw, so the returned map is updated in both cases. -/
def processIssues (ext : Externals) (issues : Issues) (name : String)
    (result : TurbopackResult) (throwIssue : Bool := false) :
    Issues × Option Thrown :=
  let acc := processIssuesAccum ext result.issues
  let issues' := mapSet issues name acc.1
  if acc.2.length != 0 && throwIssue then
    (issues', some (.moduleBuildError (joinSep "\n\n" acc.2)))
  else
    (issues', none)

/-! ## Routes, endpoints and the engine interface

Engine compilation handles (`Endpoint`) are identified by opaque string ids;
the engine itself is a parameter `env : String → WrittenEndpoint` giving the
result that `endpoint.writeToDisk()` yields for each handle. -/

/-- One `{path, contentHash}` entry of a written endpoint. -/
structure ServerPath : Type where
  path : String
  contentHash : String
deriving DecidableEq

/-- `TurbopackResult<WrittenEndpoint>`. -/
structure WrittenEndpoint extends TurbopackResult : Type where
  type : String
  serverPaths : List ServerPath

/-- An entry of `route.pages` for an `app-page` route. -/
structure AppPageRoute : Type where
  originalName : String
  htmlEndpoint : String
  rscEndpoint : String
deriving DecidableEq

/-- The route kinds the directory switch classifies (`page`, `page-api`,
`app-page`, `app-route`); unknown kinds are skipped by the source and are
not representable here. -/
inductive Route : Type where
  | page (htmlEndpoint : String) (dataEndpoint : Option String)
  | pageApi (endpoint : String)
  | appPage (pages : List AppPageRoute)
  | appRoute (originalName : String) (endpoint : String)
deriving DecidableEq

/-- `globalEntries`: the `_app` / `_document` / `_error` endpoints of the
latest snapshot. -/
structure GlobalEntries : Type where
  app : Option String
  document : Option String
  error : Option String
deriving DecidableEq

/-- An item of a `project.hmrEvents(id)` stream: its discriminating `type`,
its attached issues, and an opaque payload remainder. -/
structure HmrItem : Type where
  type : String
  issues : List Issue
  payload : String

/-- Outbound wire events (`HMR_ACTION_TYPES`), restricted to the shapes this
file sends; `sync` keeps only the error list (warnings, hash and version info
are constants in the source). -/
inductive HmrAction : Type where
  | serverOnlyChanges (pages : List String)
  | clientChanges
  | middlewareChanges
  | serverComponentChanges
  | reloadPage
  | turbopackMessage (data : List HmrItem)
  | sync (errors : List String)
  | turbopackConnected
  | building
  | built (hash : String) (errors : List String)

/-! ## The per-project mutable state -/

/-- The closure state of `createHotReloaderTurbopack`.  `writeCounts` is a
model-level instrumentation counter of `writeToDisk` invocations per
endpoint (it does not exist in the source and no operation reads it). -/
structure HotState : Type where
  curEntries : List (String × Route)
  curAppEntries : List (String × Route)
  changeSubscriptions : List (String × String)
  issues : Issues
  buildingIds : List String
  readyIds : List String
  consoleLoading : Bool
  hmrEventHappened : Bool
  hmrPayloads : List (String × HmrAction)
  turbopackUpdates : List HmrItem
  serverPathState : List (String × String)
  writeCounts : List (String × Nat)
  clients : List Nat
  clientHmrSubscriptions : List (Nat × List String)

/-- The state right after `createHotReloaderTurbopack` initializes its maps. -/
def initState : HotState where
  curEntries := []
  curAppEntries := []
  changeSubscriptions := []
  issues := []
  buildingIds := []
  readyIds := []
  consoleLoading := false
  hmrEventHappened := false
  hmrPayloads := []
  turbopackUpdates := []
  serverPathState := []
  writeCounts := []
  clients := []
  clientHmrSubscriptions := []

/-! ## Build trigger & readiness tracker -/

/-- `startBuilding(id, requestUrl, forceRebuild)`: returns the updated state
and the completion handle — `none` is the inert `() => {}` handle of the
ready short-circuit, `some id` is the real `finishBuilding` closure.
`consoleStore.setState({loading: true, ...})` is modelled by the
`consoleLoading` flag (trigger/url are observability-only payloads). -/
def startBuilding (s : HotState) (id : String) (_requestUrl : Option String)
    (forceRebuild : Bool := false) : HotState × Option String :=
  if !forceRebuild && s.readyIds.any (fun x => x == id) then
    (s, none)
  else
    let s := if s.buildingIds.length = 0 then { s with consoleLoading := true } else s
    ({ s with buildingIds := setAdd s.buildingIds id }, some id)

/-- The `finishBuilding` closure returned by `startBuilding`, applied to a
handle (`none` is the inert handle). -/
def finishBuilding (s : HotState) : Option String → HotState
  | none => s
  | some id =>
    if s.buildingIds.length = 0 then s
    else
      let s := { s with readyIds := setAdd s.readyIds id,
                        buildingIds := setDelete s.buildingIds id }
      if s.buildingIds.length = 0 then { s with consoleLoading := false } else s

/-! ## Event coalescer -/

/-- `sendHmr(key, id, payload)`: last-write-wins insert under the coalescing
key `key + ":" + id` (the debounce timer is timing-only and not modelled;
`sendEnqueuedMessages` is invoked explicitly). -/
def sendHmr (s : HotState) (key id : String) (payload : HmrAction) : HotState :=
  { s with hmrPayloads := mapSet s.hmrPayloads (key ++ ":" ++ id) payload,
           hmrEventHappened := true }

/-- `sendTurbopackMessage(payload)`: append to the unkeyed engine-update
batch. -/
def sendTurbopackMessage (s : HotState) (payload : HmrItem) : HotState :=
  { s with turbopackUpdates := s.turbopackUpdates ++ [payload],
           hmrEventHappened := true }

/-- `sendEnqueuedMessages`: gated on every issue bucket being empty; sends
one wire message per coalesced payload and one combined `TURBOPACK_MESSAGE`
batch, then clears both collections. -/
def sendEnqueuedMessages (s : HotState) : HotState × List HmrAction :=
  if s.issues.any (fun b => !b.2.isEmpty) then
    (s, [])
  else
    let payloadMsgs := s.hmrPayloads.map (fun p => p.2)
    let batch :=
      if s.turbopackUpdates.isEmpty then []
      else [HmrAction.turbopackMessage s.turbopackUpdates]
    ({ s with hmrPayloads := [], turbopackUpdates := [] }, payloadMsgs ++ batch)

/-- `hotReloader.send(action)`: deliver one action to every connected
client. -/
def broadcastSend (clients : List Nat) (msg : HmrAction) : List (Nat × HmrAction) :=
  clients.map (fun c => (c, msg))

/-- A debounced-flush firing followed by the per-message broadcast of
`hotReloader.send`: the wire deliveries it produces. -/
def flushDeliveries (s : HotState) : List (Nat × HmrAction) :=
  ((sendEnqueuedMessages s).2).flatMap (fun m => broadcastSend s.clients m)

/-! ## Engine writes and the require-cache bookkeeping -/

/-- Bump the model-level `writeToDisk` invocation counter. -/
def bumpCount (m : List (String × Nat)) (k : String) : List (String × Nat) :=
  match mapGet m k with
  | some n => mapSet m k (n + 1)
  | none => mapSet m k 1

/-- Total number of `writeToDisk` invocations recorded so far. -/
def totalWrites (s : HotState) : Nat :=
  (s.writeCounts.map (fun p => p.2)).sum

/-- `endpoint.writeToDisk()`: ask the engine for the endpoint's result and
record the invocation. -/
def writeToDisk (env : String → WrittenEndpoint) (s : HotState) (endpoint : String) :
    HotState × WrittenEndpoint :=
  ({ s with writeCounts := bumpCount s.writeCounts endpoint }, env endpoint)

/-- One `serverPaths` entry of `handleRequireCacheClearing`'s change-detection
loop; the accumulator is the path-state map and the `hasChange` flag. -/
def requireCacheStep (id : String) (st : List (String × String) × Bool)
    (sp : ServerPath) : List (String × String) × Bool :=
  if strEndsWithB sp.path ".map" then st
  else
    let key := id ++ ":" ++ sp.path
    let localHash := mapGet st.1 key
    let globalHash := mapGet st.1 sp.path
    if (localHash.isSome && localHash != some sp.contentHash) ||
        (globalHash.isSome && globalHash != some sp.contentHash) then
      (mapSet (mapSet st.1 key sp.contentHash) sp.path sp.contentHash, true)
    else
      let m1 := if localHash.isNone then mapSet st.1 key sp.contentHash else st.1
      let m2 := if globalHash.isNone then mapSet m1 sp.path sp.contentHash else m1
      (m2, st.2)

/-- `handleRequireCacheClearing(id, result)`: updates `serverPathState` and
returns the result unchanged (the cache/module-context deletions are
external side effects). -/
def handleRequireCacheClearing (s : HotState) (id : String)
    (result : WrittenEndpoint) : HotState × WrittenEndpoint :=
  let st := result.serverPaths.foldl (requireCacheStep id) (s.serverPathState, false)
  ({ s with serverPathState := st.1 }, result)

/-! ## Change subscriptions -/

/-- The synchronous prefix of `changeSubscription(page, type, ...)`: when the
endpoint exists and no subscription is registered under the key
`page + " (" + type + ")"`, register one (the value stored is the endpoint
id standing for the engine stream handle).  The indefinite iteration of the
stream is a separate concurrent task and is not part of this step. -/
def changeSubscriptionRegister (s : HotState) (page type : String)
    (endpoint : Option String) : HotState :=
  let key := page ++ " (" ++ type ++ ")"
  match endpoint with
  | none => s
  | some ep =>
    if mapHas s.changeSubscriptions key then s
    else { s with changeSubscriptions := s.changeSubscriptions ++ [(key, ep)] }

/-- `clearChangeSubscription(page, type)`: close and drop the subscription
and delete the issue bucket stored under the subscription key.  Returns the
closed subscription handle, if any. -/
def clearChangeSubscription (s : HotState) (page type : String) :
    HotState × Option String :=
  let key := page ++ " (" ++ type ++ ")"
  let closed := mapGet s.changeSubscriptions key
  let s :=
    match closed with
    | some _ => { s with changeSubscriptions := mapDelete s.changeSubscriptions key }
    | none => s
  ({ s with issues := mapDelete s.issues key }, closed)

/-! ## Route materialization (`handleRouteType`) -/

/-- The outcome of a materializing call: the final state (all `finally`
blocks applied) and the propagated throw, if any. -/
structure RunResult : Type where
  state : HotState
  thrown : Option Thrown

/-- Replace a state's issue ledger. -/
def withIssues (s : HotState) (i : Issues) : HotState := { s with issues := i }

/-- `handleRouteType(page, pathname, route, requestUrl)`.  Manifest loading,
merging and writing are external filesystem collaborators and leave the
modelled state unchanged; `changeSubscription` contributes its synchronous
registration step.  The `finally` block always applies the completion
handle, including on a throwing `processIssues`. -/
def handleRouteType (ext : Externals) (env : String → WrittenEndpoint)
    (ge : GlobalEntries) (s : HotState) (page pathname : String) (route : Route)
    (requestUrl : Option String) : RunResult :=
  match route with
  | .page htmlEndpoint dataEndpoint =>
    let sh := startBuilding s pathname requestUrl
    let s := sh.1
    let s :=
      match ge.app with
      | some appEp =>
        let sw := writeToDisk env s appEp
        let sw := handleRequireCacheClearing sw.1 "_app" sw.2
        withIssues sw.1 (processIssues ext sw.1.issues "_app" sw.2.toTurbopackResult).1
      | none => s
    let s :=
      match ge.document with
      | some docEp =>
        let sw := writeToDisk env s docEp
        let sw := handleRequireCacheClearing sw.1 "_document" sw.2
        withIssues sw.1 (processIssues ext sw.1.issues "_document" sw.2.toTurbopackResult).1
      | none => s
    let sw := writeToDisk env s htmlEndpoint
    let sw := handleRequireCacheClearing sw.1 page sw.2
    let s := withIssues sw.1 (processIssues ext sw.1.issues page sw.2.toTurbopackResult).1
    -- inner finally: arm the server/client/document change subscriptions
    let s := changeSubscriptionRegister s page "server" dataEndpoint
    let s := changeSubscriptionRegister s page "client" (some htmlEndpoint)
    let s :=
      match ge.document with
      | some _ => changeSubscriptionRegister s "_document" "server" ge.document
      | none => s
    ⟨finishBuilding s sh.2, none⟩
  | .pageApi endpoint =>
    let sh := startBuilding s pathname requestUrl
    let sw := writeToDisk env sh.1 endpoint
    let sw := handleRequireCacheClearing sw.1 page sw.2
    let s := withIssues sw.1 (processIssues ext sw.1.issues page sw.2.toTurbopackResult).1
    ⟨finishBuilding s sh.2, none⟩
  | .appPage pages =>
    -- `route.pages.find(...) ?? route.pages[0]`
    let pageRoute? := (pages.find? (fun p => p.originalName == page)).orElse
      (fun _ => pages.head?)
    let sh := startBuilding s pathname requestUrl
    match pageRoute? with
    | none =>
      -- `route.pages[0]` is `undefined`: accessing `.htmlEndpoint` throws a
      -- TypeError; the outer finally still applies the completion handle
      ⟨finishBuilding sh.1 sh.2,
        some (.genericError ("cannot read htmlEndpoint of undefined for " ++ page))⟩
    | some pageRoute =>
      let sw := writeToDisk env sh.1 pageRoute.htmlEndpoint
      let sw := handleRequireCacheClearing sw.1 page sw.2
      let s := changeSubscriptionRegister sw.1 page "server" (some pageRoute.rscEndpoint)
      let pi := processIssues ext s.issues page sw.2.toTurbopackResult true
      ⟨finishBuilding (withIssues s pi.1) sh.2, pi.2⟩
  | .appRoute _ endpoint =>
    let sh := startBuilding s pathname requestUrl
    let sw := writeToDisk env sh.1 endpoint
    let sw := handleRequireCacheClearing sw.1 page sw.2
    let pi := processIssues ext sw.1.issues page sw.2.toTurbopackResult true
    ⟨finishBuilding (withIssues sw.1 pi.1) sh.2, pi.2⟩

/-- The endpoint whose `writeToDisk` materializes the requested unit itself
(for a `page` route its html endpoint; `_app`/`_document` writes belong to
the shell units). -/
def routeMainEndpoint : Route → String → Option String
  | .page htmlEndpoint _, _ => some htmlEndpoint
  | .pageApi endpoint, _ => some endpoint
  | .appPage pages, page =>
    (((pages.find? (fun p => p.originalName == page)).orElse
      (fun _ => pages.head?)).map (fun p => p.htmlEndpoint))
  | .appRoute _ endpoint, _ => some endpoint

/-- The route kinds that opt into throw-on-issue materialization. -/
def routeThrowsOnIssue : Route → Bool
  | .appPage _ => true
  | .appRoute _ _ => true
  | _ => false

/-! ## `ensurePage` -/

/-- The `filename` / `bundlePath` / `page` record a request resolves to, with
the `pathname` the caller's definition may carry. -/
structure RouteDefinition : Type where
  page : String
  pathname : Option String
deriving DecidableEq

/-- The `page === '/_error'` branch of `ensurePage`: build the fallback
shells (`_app`, `_document`, `_error`) and return without consulting the
directory.  No `processIssues` call in this branch throws. -/
def ensureErrorPage (ext : Externals) (env : String → WrittenEndpoint)
    (ge : GlobalEntries) (s : HotState) (page pathname : String)
    (requestUrl : Option String) : RunResult :=
  let sh := startBuilding s pathname requestUrl
  let s := sh.1
  let s :=
    match ge.app with
    | some appEp =>
      let sw := writeToDisk env s appEp
      let sw := handleRequireCacheClearing sw.1 "_app" sw.2
      withIssues sw.1 (processIssues ext sw.1.issues "_app" sw.2.toTurbopackResult).1
    | none => s
  let s :=
    match ge.document with
    | some docEp =>
      let sw := writeToDisk env s docEp
      let sw := handleRequireCacheClearing sw.1 "_document" sw.2
      let s := changeSubscriptionRegister sw.1 "_document" "server" ge.document
      withIssues s (processIssues ext s.issues "_document" sw.2.toTurbopackResult).1
    | none => s
  let s :=
    match ge.error with
    | some errEp =>
      let sw := writeToDisk env s errEp
      let sw := handleRequireCacheClearing sw.1 "_error" sw.2
      withIssues sw.1 (processIssues ext sw.1.issues page sw.2.toTurbopackResult).1
    | none => s
  ⟨finishBuilding s sh.2, none⟩

/-- `BLOCKED_PAGES` and `findPagePathData` live outside these two source
files: the blocked list and the resolution result for a definition-less
request are parameters (`blockedPages`, `resolved`).  `await
currentEntriesHandling` is a synchronization point with no state effect. -/
def ensurePage (ext : Externals) (env : String → WrittenEndpoint)
    (ge : GlobalEntries) (blockedPages : List String)
    (resolved : RouteDefinition) (s : HotState) (inputPage : String)
    (definition : Option RouteDefinition) (isApp : Bool)
    (requestUrl : Option String) : RunResult :=
  if inputPage != "/_error" && blockedPages.any (fun p => p == inputPage) then
    ⟨s, none⟩
  else
    let routeDef := definition.getD resolved
    let page := routeDef.page
    let defPathname := definition.bind (fun d => d.pathname)
    let pathname := defPathname.getD inputPage
    if page == "/_error" then
      ensureErrorPage ext env ge s page pathname requestUrl
    else
      -- `definition?.pathname ? curEntries.get(...) : isApp ? ... : ...`
      -- (an empty-string pathname is falsy)
      let route :=
        if defPathname.getD "" != "" then mapGet s.curEntries (defPathname.getD "")
        else if isApp then mapGet s.curAppEntries page
        else mapGet s.curEntries page
      match route with
      | none =>
        if page == "/_app" || page == "/_document" || page == "/middleware" ||
            page == "/src/middleware" || page == "/instrumentation" ||
            page == "/src/instrumentation" then
          ⟨s, none⟩
        else
          ⟨s, some (.pageNotFoundError ("route not found " ++ page))⟩
      | some route =>
        match route with
        | .page _ _ =>
          if isApp then
            ⟨s, some (.genericError ("mis-matched route type: isApp && page for " ++ page))⟩
          else handleRouteType ext env ge s page pathname route requestUrl
        | _ => handleRouteType ext env ge s page pathname route requestUrl

/-! ## Entrypoint directory rebuild and diff (`handleEntries`) -/

/-- One `entrypoints` snapshot from `project.entrypointsSubscribe()`
(the middleware / instrumentation flags and the global endpoints are carried
separately by the callers that need them). -/
structure Entrypoints : Type where
  routes : List (String × Route)

/-- The repopulation switch of `handleEntries`: classify each route into the
pathname map and (for app routes) the original-name map. -/
def repopulateEntries (routes : List (String × Route)) :
    List (String × Route) × List (String × Route) :=
  routes.foldl
    (fun ms pr =>
      match pr.2 with
      | .page _ _ => (mapSet ms.1 pr.1 pr.2, ms.2)
      | .pageApi _ => (mapSet ms.1 pr.1 pr.2, ms.2)
      | .appPage pages =>
        (mapSet ms.1 pr.1 pr.2,
          pages.foldl (fun a p => mapSet a p.originalName pr.2) ms.2)
      | .appRoute originalName _ =>
        (mapSet ms.1 pr.1 pr.2, mapSet ms.2 originalName pr.2))
    ([], [])

/-- `pathname.replace(/ \((?:client|server)\)$/, '')`. -/
def rawPathnameOf (key : String) : String :=
  if strEndsWithB key " (client)" then
    String.mk (key.data.take (key.data.length - 9))
  else if strEndsWithB key " (server)" then
    String.mk (key.data.take (key.data.length - 9))
  else key

/-- One entry of the subscription-pruning loop of `handleEntries`: keep the
subscription when its raw pathname is empty (the explicit middleware
carve-out) or still present in a directory map; close and drop it
otherwise. -/
def pruneStep (curE curA : List (String × Route))
    (acc : List (String × String) × List String) (kv : String × String) :
    List (String × String) × List String :=
  let raw := rawPathnameOf kv.1
  if raw == "" then (acc.1 ++ [kv], acc.2)
  else if !mapHas curE raw && !mapHas curA raw then (acc.1, acc.2 ++ [kv.2])
  else (acc.1 ++ [kv], acc.2)

/-- The subscription-pruning loop of `handleEntries`.  Returns the surviving
registry and the closed handles. -/
def pruneChangeSubscriptions (curE curA : List (String × Route))
    (subs : List (String × String)) :
    List (String × String) × List String :=
  subs.foldl (pruneStep curE curA) ([], [])

/-- The directory-rebuild-and-diff prefix of one `handleEntries` iteration:
clear and repopulate both directory maps, prune stale change subscriptions,
and delete issue buckets whose key is absent from the pathname map.  The
middleware / instrumentation processing that follows in the source is
outside this step.  Returns the new state and the closed subscription
handles. -/
def handleEntriesDiff (s : HotState) (entrypoints : Entrypoints) :
    HotState × List String :=
  let maps := repopulateEntries entrypoints.routes
  let pruned := pruneChangeSubscriptions maps.1 maps.2 s.changeSubscriptions
  let issues' := s.issues.filter (fun b => mapHas maps.1 b.1)
  ({ s with curEntries := maps.1, curAppEntries := maps.2,
            changeSubscriptions := pruned.1, issues := issues' }, pruned.2)

/-! ## Per-client raw engine subscriptions and the fan-out bus -/

/-- The body of the `for await (const data of subscription)` loop of
`subscribeToHmrEvents`: record the item's issues for the id, and forward
non-issue items to the global update batch. -/
def hmrStreamStep (ext : Externals) (id : String) (s : HotState)
    (data : HmrItem) : HotState :=
  let s := withIssues s (processIssues ext s.issues id ⟨data.issues⟩).1
  if data.type != "issues" then sendTurbopackMessage s data else s

/-- The `mapping.set(id, subscription)` registration step of
`subscribeToHmrEvents`. -/
def subscribeRegister (s : HotState) (client : Nat) (id : String) : HotState :=
  let mapping := (mapGet s.clientHmrSubscriptions client).getD []
  { s with clientHmrSubscriptions := mapSet s.clientHmrSubscriptions client (mapping ++ [id]) }

/-- `subscribeToHmrEvents(id, client)` run against a finite prefix of the
engine's `hmrEvents(id)` stream: idempotence guard on the client's mapping,
then the first emitted item is swallowed (`await subscription.next()`), and
every later item is folded into the issue ledger with non-issue items
appended verbatim to the global update batch. -/
def subscribeToHmrEvents (ext : Externals) (s : HotState) (id : String)
    (client : Nat) (stream : List HmrItem) : HotState :=
  let mapping := (mapGet s.clientHmrSubscriptions client).getD []
  if mapping.any (fun x => x == id) then s
  else
    match stream with
    | [] => subscribeRegister s client id
    | _first :: rest => rest.foldl (hmrStreamStep ext id) (subscribeRegister s client id)

/-- The connection-accept path of `onHMR`: register the client, send the
connection acknowledgement to that client alone, then send the full-state
sync (built from the flattened issue ledger) through the broadcast `send`.
Returns the new state and the wire deliveries in order. -/
def onHMRConnect (ext : Externals) (s : HotState) (client : Nat) :
    HotState × List (Nat × HmrAction) :=
  let clients' := setAdd s.clients client
  let s := { s with clients := clients' }
  let errors :=
    s.issues.flatMap (fun b => b.2.map (fun kv => formatIssue ext kv.2))
  (s, (client, HmrAction.turbopackConnected) ::
    broadcastSend clients' (HmrAction.sync errors))

/-! ## Reachable states of the build tracker -/

/-- States of the building/ready tracker reachable by interleaving
`startBuilding` calls (with arbitrary `forceRebuild`) and invocations of the
completion handles those calls returned (in any order, any number of
times). -/
inductive TrackerReachable : HotState → List (Option String) → Prop where
  | init : TrackerReachable initState []
  | start (s : HotState) (hs : List (Option String)) (id : String)
      (url : Option String) (force : Bool) :
      TrackerReachable s hs →
      TrackerReachable (startBuilding s id url force).1
        ((startBuilding s id url force).2 :: hs)
  | finish (s : HotState) (hs : List (Option String)) (h : Option String) :
      TrackerReachable s hs → h ∈ hs →
      TrackerReachable (finishBuilding s h) hs

/-- Same, but with every `startBuilding` call using `forceRebuild = false`. -/
inductive TrackerReachableNF : HotState → List (Option String) → Prop where
  | init : TrackerReachableNF initState []
  | start (s : HotState) (hs : List (Option String)) (id : String)
      (url : Option String) :
      TrackerReachableNF s hs →
      TrackerReachableNF (startBuilding s id url false).1
        ((startBuilding s id url false).2 :: hs)
  | finish (s : HotState) (hs : List (Option String)) (h : Option String) :
      TrackerReachableNF s hs → h ∈ hs →
      TrackerReachableNF (finishBuilding s h) hs


/-! ## Lemmas about the collection primitives -/

theorem mem_setAdd {α : Type} [BEq α] [LawfulBEq α] {s : List α} {a x : α} :
    x ∈ setAdd s a ↔ x ∈ s ∨ x = a := by
  unfold setAdd
  by_cases h : s.any (fun y => y == a) = true
  · rw [if_pos h]
    simp only [List.any_eq_true, beq_iff_eq] at h
    obtain ⟨y, hy, rfl⟩ := h
    constructor
    · exact Or.inl
    · rintro (hx | rfl) <;> assumption
  · rw [if_neg h]
    simp only [List.mem_append, List.mem_singleton]

theorem setAdd_ne_nil {α : Type} [BEq α] (s : List α) (a : α) :
    setAdd s a ≠ [] := by
  unfold setAdd
  by_cases h : s.any (fun y => y == a) = true
  · rw [if_pos h]
    rcases s with _ | ⟨b, t⟩
    · simp [List.any_nil] at h
    · simp
  · rw [if_neg h]
    simp

theorem mem_setDelete {α : Type} [BEq α] [LawfulBEq α] {s : List α} {a x : α} :
    x ∈ setDelete s a ↔ x ∈ s ∧ x ≠ a := by
  unfold setDelete
  simp [List.mem_filter]

theorem find?_map_replace {κ α : Type} [BEq κ] [LawfulBEq κ]
    (m : List (κ × α)) (k : κ) (v : α) (h : m.any (fun p => p.1 == k) = true) :
    ((m.map (fun p => if p.1 == k then (k, v) else p)).find?
      (fun p => p.1 == k)) = some (k, v) := by
  induction m with
  | nil => simp at h
  | cons p t ih =>
    by_cases hp : (p.1 == k) = true
    · simp [List.map_cons, if_pos hp, List.find?_cons]
    · have hp' : (p.1 == k) = false := by simpa using hp
      simp only [List.any_cons, hp', Bool.false_or] at h
      rw [List.map_cons, if_neg hp, List.find?_cons, hp']
      exact ih h

theorem find?_map_replace_ne {κ α : Type} [BEq κ] [LawfulBEq κ]
    (m : List (κ × α)) (k k' : κ) (v : α) (hk : k' ≠ k) :
    ((m.map (fun p => if p.1 == k then (k, v) else p)).find?
      (fun p => p.1 == k')) = m.find? (fun p => p.1 == k') := by
  induction m with
  | nil => rfl
  | cons p t ih =>
    by_cases hp : (p.1 == k) = true
    · have hp' : p.1 = k := by simpa using hp
      have h1 : ((k : κ) == k') = false := by
        simp only [beq_eq_false_iff_ne]
        exact fun h => hk h.symm
      have h2 : (p.1 == k') = false := by
        rw [hp']; exact h1
      simp only [List.map_cons, if_pos hp, List.find?_cons, h1, h2]
      exact ih
    · simp only [List.map_cons, if_neg hp, List.find?_cons]
      by_cases hq : (p.1 == k') = true
      · simp only [hq]
      · have hq' : (p.1 == k') = false := by simpa using hq
        simp only [hq']
        exact ih

theorem not_any_of_eq_false {κ α : Type} [BEq κ]
    {m : List (κ × α)} {k : κ} (h : ¬ (m.any (fun p => p.1 == k) = true)) :
    ∀ p ∈ m, ¬ ((p.1 == k) = true) := by
  have h' : m.any (fun p => p.1 == k) = false := by simpa using h
  simpa [List.any_eq_false] using h'

theorem mapGet_mapSet_self {κ α : Type} [BEq κ] [LawfulBEq κ]
    (m : List (κ × α)) (k : κ) (v : α) :
    mapGet (mapSet m k v) k = some v := by
  unfold mapSet
  by_cases h : m.any (fun p => p.1 == k) = true
  · rw [if_pos h]
    unfold mapGet
    rw [find?_map_replace m k v h]
    rfl
  · rw [if_neg h]
    unfold mapGet
    rw [List.find?_append]
    rw [List.find?_eq_none.mpr (not_any_of_eq_false h), Option.none_or]
    rw [List.find?_cons_of_pos _ (by simp)]
    rfl

theorem mapGet_mapSet_ne {κ α : Type} [BEq κ] [LawfulBEq κ]
    (m : List (κ × α)) (k k' : κ) (v : α) (hk : k' ≠ k) :
    mapGet (mapSet m k v) k' = mapGet m k' := by
  unfold mapSet
  by_cases h : m.any (fun p => p.1 == k) = true
  · rw [if_pos h]
    unfold mapGet
    rw [find?_map_replace_ne m k k' v hk]
  · rw [if_neg h]
    unfold mapGet
    rw [List.find?_append]
    have h1 : ([(k, v)].find? (fun p => p.1 == k')) = none := by
      rw [List.find?_cons_of_neg]
      · rfl
      · simp only [beq_iff_eq]
        exact fun hkk => hk hkk.symm
    rw [h1]
    rcases hf : m.find? (fun p => p.1 == k') with _ | p <;> simp [hf]

theorem map_fst_mapSet {κ α : Type} [BEq κ] [LawfulBEq κ]
    (m : List (κ × α)) (k : κ) (v : α) :
    (mapSet m k v).map Prod.fst =
      if m.any (fun p => p.1 == k) = true then m.map Prod.fst
      else m.map Prod.fst ++ [k] := by
  unfold mapSet
  by_cases h : m.any (fun p => p.1 == k) = true
  · rw [if_pos h, if_pos h]
    rw [List.map_map]
    apply List.map_congr_left
    intro p _
    by_cases hp : (p.1 == k) = true
    · have hpe : p.1 = k := by simpa using hp
      simp [Function.comp, if_pos hp, hpe]
    · simp [Function.comp, if_neg hp]
  · rw [if_neg h, if_neg h]
    simp

theorem mem_fst_mapSet {κ α : Type} [BEq κ] [LawfulBEq κ]
    {m : List (κ × α)} {k k' : κ} {v : α} :
    k' ∈ (mapSet m k v).map Prod.fst ↔ k' ∈ m.map Prod.fst ∨ k' = k := by
  rw [map_fst_mapSet]
  by_cases h : m.any (fun p => p.1 == k) = true
  · rw [if_pos h]
    constructor
    · exact Or.inl
    · rintro (hx | rfl)
      · exact hx
      · simp only [List.any_eq_true, beq_iff_eq] at h
        obtain ⟨p, hp, rfl⟩ := h
        exact List.mem_map.mpr ⟨p, hp, rfl⟩
  · rw [if_neg h]
    simp

theorem nodup_fst_mapSet {κ α : Type} [BEq κ] [LawfulBEq κ]
    {m : List (κ × α)} {k : κ} {v : α} (h : (m.map Prod.fst).Nodup) :
    ((mapSet m k v).map Prod.fst).Nodup := by
  rw [map_fst_mapSet]
  by_cases ha : m.any (fun p => p.1 == k) = true
  · rw [if_pos ha]; exact h
  · rw [if_neg ha]
    have hk : k ∉ m.map Prod.fst := by
      intro hmem
      obtain ⟨p, hp, hpk⟩ := List.mem_map.mp hmem
      exact (not_any_of_eq_false ha) p hp (by simp [hpk])
    simp [List.nodup_append, h, hk]

theorem mem_mapSet_or {κ α : Type} [BEq κ] [LawfulBEq κ]
    {m : List (κ × α)} {k : κ} {v : α} {p : κ × α} (h : p ∈ mapSet m k v) :
    p ∈ m ∨ p = (k, v) := by
  unfold mapSet at h
  by_cases ha : m.any (fun q => q.1 == k) = true
  · rw [if_pos ha] at h
    obtain ⟨q, hq, hqe⟩ := List.mem_map.mp h
    by_cases hqk : (q.1 == k) = true
    · right; rw [← hqe]; simp [if_pos hqk]
    · left; rw [← hqe]; simpa [if_neg hqk] using hq
  · rw [if_neg ha] at h
    simpa using h

theorem joinSep_infix {x : String} {l : List String} (sep : String)
    (h : x ∈ l) : ∃ p q, joinSep sep l = p ++ x ++ q := by
  induction l with
  | nil => simp at h
  | cons a t ih =>
    rcases List.mem_cons.mp h with rfl | hx
    · rcases t with _ | ⟨b, u⟩
      · refine ⟨"", "", ?_⟩
        show x = "" ++ x ++ ""
        rw [String.empty_append, String.append_empty]
      · refine ⟨"", sep ++ joinSep sep (b :: u), ?_⟩
        show joinSep sep (x :: b :: u) = "" ++ x ++ (sep ++ joinSep sep (b :: u))
        simp only [joinSep, String.empty_append, String.append_assoc]
    · obtain ⟨p, q, hpq⟩ := ih hx
      rcases t with _ | ⟨b, u⟩
      · simp at hx
      · refine ⟨a ++ sep ++ p, q, ?_⟩
        show joinSep sep (a :: b :: u) = a ++ sep ++ p ++ x ++ q
        simp only [joinSep]
        rw [hpq]
        simp only [String.append_assoc]

/-! ## Folding keyed writes (the coalescing map) -/

theorem foldl_mapSet_get {α : Type} (l : List (String × α)) :
    ∀ (m : List (String × α)) (k : String),
      mapGet (l.foldl (fun m p => mapSet m p.1 p.2) m) k =
        (lastAssoc l k).or (mapGet m k) := by
  induction l with
  | nil => intro m k; rfl
  | cons p t ih =>
    intro m k
    rw [List.foldl_cons, ih]
    rcases hl : lastAssoc t k with _ | v
    · by_cases hk : (p.1 == k) = true
      · have hkk : p.1 = k := by simpa using hk
        subst hkk
        rw [mapGet_mapSet_self]
        simp [lastAssoc, hl]
      · have hk2 : k ≠ p.1 := by
          intro h
          exact hk (by simp [h])
        rw [mapGet_mapSet_ne _ _ _ _ hk2]
        simp [lastAssoc, hl, hk]
    · simp [lastAssoc, hl]

theorem foldl_mapSet_mem_fst {α : Type} (l : List (String × α)) :
    ∀ (m : List (String × α)) (k : String),
      (k ∈ (l.foldl (fun m p => mapSet m p.1 p.2) m).map Prod.fst ↔
        k ∈ m.map Prod.fst ∨ k ∈ l.map Prod.fst) := by
  induction l with
  | nil => intro m k; simp
  | cons p t ih =>
    intro m k
    rw [List.foldl_cons, ih, mem_fst_mapSet]
    simp only [List.map_cons, List.mem_cons]
    tauto

theorem foldl_mapSet_nodup {α : Type} (l : List (String × α)) :
    ∀ (m : List (String × α)), (m.map Prod.fst).Nodup →
      ((l.foldl (fun m p => mapSet m p.1 p.2) m).map Prod.fst).Nodup := by
  induction l with
  | nil => intro m h; exact h
  | cons p t ih =>
    intro m h
    rw [List.foldl_cons]
    exact ih _ (nodup_fst_mapSet h)

/-! ## Characterizing `processIssues` -/

/-- The severities that `processIssues` keeps at all. -/
def qualSev (i : Issue) : Bool :=
  i.severity == "error" || i.severity == "fatal"

/-- The issues that count toward throwing: blocking severity and not under a
`node_modules` path. -/
def qualRel (i : Issue) : Bool :=
  qualSev i && !(isNodeModulesPath i.filePath)

theorem processIssuesStep_fst (ext : Externals)
    (acc : List (String × Issue) × List String) (i : Issue) :
    (processIssuesStep ext acc i).1 =
      if qualSev i then mapSet acc.1 (issueKey ext i) i else acc.1 := by
  unfold processIssuesStep qualSev
  cases h1 : i.severity == "error" <;> cases h2 : i.severity == "fatal" <;>
    cases h3 : isNodeModulesPath i.filePath <;> simp [h1, h2, h3, bne]

theorem processIssuesStep_snd (ext : Externals)
    (acc : List (String × Issue) × List String) (i : Issue) :
    (processIssuesStep ext acc i).2 =
      if qualRel i then setAdd acc.2 (formatIssue ext i) else acc.2 := by
  unfold processIssuesStep qualRel qualSev
  cases h1 : i.severity == "error" <;> cases h2 : i.severity == "fatal" <;>
    cases h3 : isNodeModulesPath i.filePath <;> simp [h1, h2, h3, bne]

theorem relevant_mem_foldl (ext : Externals) (l : List Issue) :
    ∀ (acc : List (String × Issue) × List String) (x : String), x ∈ acc.2 →
      x ∈ (l.foldl (processIssuesStep ext) acc).2 := by
  induction l with
  | nil => intro acc x hx; exact hx
  | cons i t ih =>
    intro acc x hx
    rw [List.foldl_cons]
    apply ih
    rw [processIssuesStep_snd]
    by_cases hq : qualRel i = true
    · rw [if_pos hq]
      exact mem_setAdd.mpr (Or.inl hx)
    · rw [if_neg hq]
      exact hx

theorem formatted_mem_relevant (ext : Externals) (l : List Issue) :
    ∀ (acc : List (String × Issue) × List String) (i : Issue), i ∈ l →
      qualRel i = true →
      formatIssue ext i ∈ (l.foldl (processIssuesStep ext) acc).2 := by
  induction l with
  | nil => intro acc i hi; simp at hi
  | cons j t ih =>
    intro acc i hi hq
    rcases List.mem_cons.mp hi with rfl | hi'
    · rw [List.foldl_cons]
      apply relevant_mem_foldl
      rw [processIssuesStep_snd, if_pos hq]
      exact mem_setAdd.mpr (Or.inr rfl)
    · rw [List.foldl_cons]
      exact ih _ i hi' hq

theorem bucket_sev_foldl (ext : Externals) (l : List Issue) :
    ∀ (acc : List (String × Issue) × List String),
      (∀ p ∈ acc.1, qualSev p.2 = true) →
      ∀ p ∈ (l.foldl (processIssuesStep ext) acc).1, qualSev p.2 = true := by
  induction l with
  | nil => intro acc h p hp; exact h p hp
  | cons i t ih =>
    intro acc h p hp
    rw [List.foldl_cons] at hp
    refine ih _ ?_ p hp
    intro q hq
    rw [processIssuesStep_fst] at hq
    by_cases hs : qualSev i = true
    · rw [if_pos hs] at hq
      rcases mem_mapSet_or hq with hq' | rfl
      · exact h q hq'
      · exact hs
    · rw [if_neg hs] at hq
      exact h q hq

theorem accum_filter_eq (ext : Externals) (l : List Issue) :
    ∀ (acc : List (String × Issue) × List String),
      l.foldl (processIssuesStep ext) acc =
        (l.filter qualSev).foldl (processIssuesStep ext) acc := by
  induction l with
  | nil => intro acc; rfl
  | cons i t ih =>
    intro acc
    by_cases hs : qualSev i = true
    · rw [List.foldl_cons, List.filter_cons_of_pos hs, List.foldl_cons, ih]
    · have hstep : processIssuesStep ext acc i = acc := by
        have h1 : (processIssuesStep ext acc i).1 = acc.1 := by
          rw [processIssuesStep_fst, if_neg hs]
        have h2 : (processIssuesStep ext acc i).2 = acc.2 := by
          rw [processIssuesStep_snd, if_neg]
          intro hrel
          unfold qualRel at hrel
          rw [Bool.and_eq_true] at hrel
          exact hs hrel.1
        exact Prod.ext h1 h2
      rw [List.foldl_cons, hstep,
        List.filter_cons_of_neg (by simpa using hs), ih]

theorem relevant_eq_nil_iff (ext : Externals) (l : List Issue) :
    ∀ (acc : List (String × Issue) × List String),
      ((l.foldl (processIssuesStep ext) acc).2 = [] ↔
        acc.2 = [] ∧ ∀ i ∈ l, qualRel i = false) := by
  induction l with
  | nil => intro acc; simp
  | cons i t ih =>
    intro acc
    rw [List.foldl_cons, ih]
    by_cases hq : qualRel i = true
    · constructor
      · rintro ⟨h2, -⟩
        rw [processIssuesStep_snd, if_pos hq] at h2
        exact absurd h2 (setAdd_ne_nil _ _)
      · rintro ⟨-, hall⟩
        have := hall i (List.mem_cons_self i t)
        rw [hq] at this
        exact absurd this (by simp)
    · have h2 : (processIssuesStep ext acc i).2 = acc.2 := by
        rw [processIssuesStep_snd, if_neg hq]
      rw [h2]
      constructor
      · rintro ⟨ha, hall⟩
        refine ⟨ha, ?_⟩
        intro j hj
        rcases List.mem_cons.mp hj with rfl | hj'
        · simpa using hq
        · exact hall j hj'
      · rintro ⟨ha, hall⟩
        exact ⟨ha, fun j hj => hall j (List.mem_cons_of_mem i hj)⟩

/-! ## Build-tracker lemmas -/

theorem startBuilding_ready (s : HotState) (id : String) (url : Option String)
    (h : s.readyIds.any (fun x => x == id) = true) :
    startBuilding s id url false = (s, none) := by
  unfold startBuilding
  rw [if_pos (by simp [h])]

theorem startBuilding_proj (s : HotState) (id : String) (url : Option String)
    (force : Bool) (h : (!force && s.readyIds.any (fun x => x == id)) = false) :
    (startBuilding s id url force).1.buildingIds = setAdd s.buildingIds id ∧
      (startBuilding s id url force).1.readyIds = s.readyIds ∧
      (startBuilding s id url force).2 = some id := by
  unfold startBuilding
  rw [if_neg (by simp [h])]
  by_cases h2 : s.buildingIds.length = 0 <;> simp [h2]

theorem finishBuilding_skip (s : HotState) (id : String)
    (h : s.buildingIds.length = 0) :
    finishBuilding s (some id) = s := by
  simp only [finishBuilding]
  rw [if_pos h]

theorem finishBuilding_proj (s : HotState) (id : String)
    (h : ¬ s.buildingIds.length = 0) :
    (finishBuilding s (some id)).readyIds = setAdd s.readyIds id ∧
      (finishBuilding s (some id)).buildingIds = setDelete s.buildingIds id := by
  simp only [finishBuilding]
  rw [if_neg h]
  by_cases h2 : (setDelete s.buildingIds id).length = 0 <;> simp [h2]

theorem tracker_exclusive_nf (s : HotState) (hs : List (Option String))
    (h : TrackerReachableNF s hs) :
    ∀ k, ¬(k ∈ s.buildingIds ∧ k ∈ s.readyIds) := by
  induction h with
  | init =>
    rintro k ⟨hk, -⟩
    simp [initState] at hk
  | start s hs id url h ih =>
    rintro k ⟨hb, hr⟩
    by_cases hrd : (!false && s.readyIds.any (fun x => x == id)) = true
    · unfold startBuilding at hb hr
      rw [if_pos hrd] at hb hr
      exact ih k ⟨hb, hr⟩
    · obtain ⟨hb', hr', -⟩ := startBuilding_proj s id url false
        (by simp only [Bool.not_eq_true] at hrd; exact hrd)
      rw [hb'] at hb
      rw [hr'] at hr
      rcases mem_setAdd.mp hb with hb2 | rfl
      · exact ih k ⟨hb2, hr⟩
      · apply hrd
        simp only [Bool.not_false, Bool.true_and]
        exact List.any_eq_true.mpr ⟨_, hr, by simp⟩
  | finish s hs hd h hmem ih =>
    rintro k ⟨hb, hr⟩
    cases hd with
    | none => exact ih k ⟨hb, hr⟩
    | some id =>
      by_cases hl : s.buildingIds.length = 0
      · rw [finishBuilding_skip s id hl] at hb hr
        exact ih k ⟨hb, hr⟩
      · obtain ⟨hr', hb'⟩ := finishBuilding_proj s id hl
        rw [hb'] at hb
        rw [hr'] at hr
        obtain ⟨hbs, hbne⟩ := mem_setDelete.mp hb
        rcases mem_setAdd.mp hr with hr2 | rfl
        · exact ih k ⟨hbs, hr2⟩
        · exact hbne rfl

/-! ## Further characterizations of `processIssues` -/

theorem processIssues_spec (ext : Externals) (issues : Issues) (name : String)
    (result : TurbopackResult) (throwIssue : Bool) :
    processIssues ext issues name result throwIssue =
      (mapSet issues name (processIssuesAccum ext result.issues).1,
        if (processIssuesAccum ext result.issues).2.length != 0 && throwIssue then
          some (Thrown.moduleBuildError
            (joinSep "\n\n" (processIssuesAccum ext result.issues).2))
        else none) := by
  unfold processIssues
  dsimp only
  by_cases hc :
      ((processIssuesAccum ext result.issues).2.length != 0 && throwIssue) = true
  · rw [if_pos hc, if_pos hc]
  · rw [if_neg hc, if_neg hc]

theorem accum_relevant_ne_nil_iff (ext : Externals) (l : List Issue) :
    (processIssuesAccum ext l).2 ≠ [] ↔ ∃ i ∈ l, qualRel i = true := by
  unfold processIssuesAccum
  rw [ne_eq, relevant_eq_nil_iff ext l ([], [])]
  constructor
  · intro h
    by_contra hno
    push_neg at hno
    apply h
    refine ⟨rfl, fun i hi => ?_⟩
    have := hno i hi
    simpa using this
  · rintro ⟨i, hi, hq⟩ ⟨-, hall⟩
    have h2 := hall i hi
    simp [hq] at h2

/-! ## Concrete fixtures shared by counterexamples and witnesses -/

/-- A concrete instantiation of the external string collaborators. -/
def extId : Externals where
  bold := fun s => s
  red := fun s => s
  green := fun s => s
  magenta := fun s => s
  decodeMagicIdentifiers := fun s => s
  codeFrame := fun _ _ _ => ""
  stringifyStyled := fun _ => ""

/-- An error-severity issue outside any dependency path. -/
def errIssue : Issue where
  severity := "error"
  filePath := "app/broken.ts"
  title := .text "Boom"
  description := none
  source := none
  documentationLink := none
  detail := none

/-- A warning-severity issue. -/
def warnIssue : Issue where
  severity := "warning"
  filePath := "app/page.ts"
  title := .text "Slow"
  description := none
  source := none
  documentationLink := none
  detail := none

/-! ## Claim C2 — building/ready exclusivity -/

/-- First step of the C2 trace: `startBuilding("x")` on the fresh tracker. -/
def c2Step1 : HotState × Option String := startBuilding initState "x" none false

/-- Second step: invoke the completion handle, moving `"x"` to ready. -/
def c2Step2 : HotState := finishBuilding c2Step1.1 c2Step1.2

/-- Third step: `startBuilding("x", _, forceRebuild := true)` on the ready
unit. -/
def c2Step3 : HotState × Option String := startBuilding c2Step2 "x" none true

/-- C2 counterexample: the state after `startBuilding("x")`, its completion
handle, and a forced `startBuilding("x", _, true)` is reachable by
interleaving `startBuilding` calls and completion-handle calls, yet `"x"` is
simultaneously a member of "building" and of "ready": `startBuilding` with
`forceRebuild = true` never removes the id from the ready set. -/
theorem c2_counterexample :
    TrackerReachable c2Step3.1 [c2Step3.2, c2Step1.2] ∧
      "x" ∈ c2Step3.1.buildingIds ∧ "x" ∈ c2Step3.1.readyIds := by
  refine ⟨?_, by decide, by decide⟩
  have h1 : TrackerReachable c2Step1.1 [c2Step1.2] :=
    TrackerReachable.start initState [] "x" none false TrackerReachable.init
  have h2 : TrackerReachable c2Step2 [c2Step1.2] :=
    TrackerReachable.finish c2Step1.1 [c2Step1.2] c2Step1.2 h1
      (List.mem_singleton.mpr rfl)
  exact TrackerReachable.start c2Step2 [c2Step1.2] "x" none true h2

/-- C2 (amended): for every state reachable by interleaving `startBuilding`
calls with `forceRebuild = false` and calls of the completion handles they
return, no key is simultaneously in "building" and "ready"; however
`startBuilding(id, _, true)` leaves the ready set unchanged (it does not
remove `id` from "ready" before `id` enters "building"), so a forced rebuild
of a ready unit breaks the exclusivity. -/
theorem c2_tracker_exclusivity_amended :
    (∀ (s : HotState) (hs : List (Option String)), TrackerReachableNF s hs →
      ∀ k, ¬(k ∈ s.buildingIds ∧ k ∈ s.readyIds)) ∧
    (∀ (s : HotState) (id : String) (url : Option String),
      ((startBuilding s id url true).1).readyIds = s.readyIds) := by
  constructor
  · exact tracker_exclusive_nf
  · intro s id url
    unfold startBuilding
    rw [if_neg (by simp)]
    by_cases h2 : s.buildingIds.length = 0 <;> simp [h2]

/-- Witness for C2: the amended theorem applied to the initial tracker state
and to a concrete forced rebuild. -/
theorem c2_tracker_exclusivity_witness :
    (¬("x" ∈ initState.buildingIds ∧ "x" ∈ initState.readyIds)) ∧
      ((startBuilding initState "x" none true).1).readyIds = initState.readyIds :=
  ⟨c2_tracker_exclusivity_amended.1 initState [] TrackerReachableNF.init "x",
    c2_tracker_exclusivity_amended.2 initState "x" none⟩

/-! ## Claim C4 — issue recording -/

/-- C4 counterexample: recording a result whose only issue has severity
`warning` over a previously non-empty bucket leaves the unit's bucket
**empty** — the warning is not retained for display, contradicting the claim
that lower-severity issues are kept in the bucket.  (Replacement itself is
visible too: the stale error is gone.)  Nothing is thrown. -/
theorem c4_counterexample :
    (processIssues extId [("p", [("k", errIssue)])] "p" ⟨[warnIssue]⟩).1 =
        [("p", [])] ∧
      (processIssues extId [("p", [("k", errIssue)])] "p" ⟨[warnIssue]⟩).2 = none ∧
      warnIssue.severity = "warning" :=
  ⟨rfl, rfl, rfl⟩

/-- C4 (amended): recording replaces the unit's entire bucket; the new bucket
is computed from the error/fatal issues alone (lower severities are discarded
entirely, not retained), every retained issue has severity error or fatal,
and a throw happens exactly when throwing was requested and some error/fatal
issue lies outside a dependency (`node_modules`) path. -/
theorem c4_issue_ledger_amended (ext : Externals) (issues : Issues)
    (name : String) (result : TurbopackResult) (throwIssue : Bool) :
    (processIssues ext issues name result throwIssue).1 =
        mapSet issues name
          (processIssuesAccum ext (result.issues.filter qualSev)).1 ∧
      (∀ p ∈ (processIssuesAccum ext result.issues).1, qualSev p.2 = true) ∧
      ((processIssues ext issues name result throwIssue).2 ≠ none ↔
        throwIssue = true ∧ ∃ i ∈ result.issues, qualRel i = true) := by
  have hfilter : processIssuesAccum ext result.issues =
      processIssuesAccum ext (result.issues.filter qualSev) := by
    unfold processIssuesAccum
    rw [accum_filter_eq]
  refine ⟨?_, ?_, ?_⟩
  · rw [processIssues_spec, ← hfilter]
  · unfold processIssuesAccum
    exact bucket_sev_foldl ext result.issues ([], [])
      (fun p hp => absurd hp (List.not_mem_nil p))
  · rw [processIssues_spec]
    by_cases hc :
        ((processIssuesAccum ext result.issues).2.length != 0 && throwIssue) = true
    · rw [if_pos hc]
      rw [Bool.and_eq_true] at hc
      obtain ⟨hlen, ht⟩ := hc
      constructor
      · intro _
        refine ⟨ht, ?_⟩
        rw [← accum_relevant_ne_nil_iff ext result.issues]
        intro h0
        rw [h0] at hlen
        simp at hlen
      · intro _
        simp
    · rw [if_neg hc]
      constructor
      · intro h
        exact absurd rfl h
      · rintro ⟨ht, i, hi, hq⟩
        exfalso
        apply hc
        rw [Bool.and_eq_true]
        refine ⟨?_, ht⟩
        have hne : (processIssuesAccum ext result.issues).2 ≠ [] :=
          (accum_relevant_ne_nil_iff ext result.issues).mpr ⟨i, hi, hq⟩
        simpa [bne] using hne

/-- Witness for C4: the amended theorem applied to a recording of one
concrete error-severity issue with throwing requested. -/
theorem c4_issue_ledger_witness :
    (processIssues extId [] "p" ⟨[errIssue]⟩ true).1 =
        mapSet [] "p" (processIssuesAccum extId ([errIssue].filter qualSev)).1 ∧
      (processIssues extId [] "p" ⟨[errIssue]⟩ true).2 ≠ none := by
  obtain ⟨h1, -, h3⟩ := c4_issue_ledger_amended extId [] "p" ⟨[errIssue]⟩ true
  exact ⟨h1, h3.mpr ⟨rfl, errIssue, List.mem_singleton.mpr rfl, by decide⟩⟩

/-! ## Claim C6 — error-gated flush -/

/-- C6: if any unit's issue bucket is non-empty when the flush fires, zero
wire messages are sent and nothing is cleared (the whole state is returned
unchanged); a flush firing with all buckets empty sends every pending keyed
payload plus the batched engine updates and clears both queues; hence a
flush fired after the blocking issues are replaced by all-empty buckets
sends every message pending since the blocked flush. -/
theorem c6_flush_gating (s : HotState) :
    ((s.issues.any fun b => !b.2.isEmpty) = true →
      sendEnqueuedMessages s = (s, [])) ∧
    ((∀ b ∈ s.issues, b.2 = []) →
      (sendEnqueuedMessages s).2 =
          s.hmrPayloads.map (fun p => p.2) ++
            (if s.turbopackUpdates.isEmpty then []
              else [HmrAction.turbopackMessage s.turbopackUpdates]) ∧
        (sendEnqueuedMessages s).1.hmrPayloads = [] ∧
        (sendEnqueuedMessages s).1.turbopackUpdates = []) ∧
    (∀ issues2 : Issues, (∀ b ∈ issues2, b.2 = []) →
      (sendEnqueuedMessages { s with issues := issues2 }).2 =
        s.hmrPayloads.map (fun p => p.2) ++
          (if s.turbopackUpdates.isEmpty then []
            else [HmrAction.turbopackMessage s.turbopackUpdates])) := by
  refine ⟨?_, ?_, ?_⟩
  · intro h
    unfold sendEnqueuedMessages
    rw [if_pos h]
  · intro h
    have hany : (s.issues.any fun b => !b.2.isEmpty) = false := by
      rw [List.any_eq_false]
      intro b hb
      simp [h b hb]
    unfold sendEnqueuedMessages
    rw [if_neg (by simp [hany])]
    exact ⟨rfl, rfl, rfl⟩
  · intro issues2 h2
    have hany : (issues2.any fun b => !b.2.isEmpty) = false := by
      rw [List.any_eq_false]
      intro b hb
      simp [h2 b hb]
    unfold sendEnqueuedMessages
    rw [if_neg (by simp [hany])]

/-- A blocked coalescer state: one pending payload, one non-empty bucket. -/
def c6Blocked : HotState :=
  { initState with
      issues := [("p", [("k", errIssue)])]
      hmrPayloads := [("endpoint-change:a", HmrAction.clientChanges)] }

/-- Witness for C6: the blocked flush sends nothing and clears nothing; after
the bucket is emptied, the next flush sends the pending payload. -/
theorem c6_flush_gating_witness :
    sendEnqueuedMessages c6Blocked = (c6Blocked, []) ∧
      (sendEnqueuedMessages { c6Blocked with issues := [] }).2 =
        [HmrAction.clientChanges] := by
  obtain ⟨h1, -, h3⟩ := c6_flush_gating c6Blocked
  refine ⟨h1 (by decide), ?_⟩
  have := h3 [] (fun b hb => absurd hb (List.not_mem_nil b))
  exact this.trans rfl

/-! ## Claim C7 — last-write-wins coalescing -/

/-- A burst of `sendHmr(key, id, payload)` calls inside one debounce
window. -/
def runSendHmrs (s : HotState) (calls : List (String × String × HmrAction)) :
    HotState :=
  calls.foldl (fun s c => sendHmr s c.1 c.2.1 c.2.2) s

/-- The coalescing key `key + ":" + id` of one `sendHmr` call. -/
def coalesceKey (c : String × String × HmrAction) : String :=
  c.1 ++ ":" ++ c.2.1

theorem runSendHmrs_proj (calls : List (String × String × HmrAction)) :
    ∀ s : HotState,
      (runSendHmrs s calls).hmrPayloads =
          calls.foldl (fun m c => mapSet m (coalesceKey c) c.2.2) s.hmrPayloads ∧
        (runSendHmrs s calls).issues = s.issues ∧
        (runSendHmrs s calls).turbopackUpdates = s.turbopackUpdates := by
  induction calls with
  | nil => intro s; exact ⟨rfl, rfl, rfl⟩
  | cons c t ih =>
    intro s
    obtain ⟨h1, h2, h3⟩ := ih (sendHmr s c.1 c.2.1 c.2.2)
    exact ⟨h1, h2, h3⟩

/-- C7: after any burst of keyed enqueues into an empty coalescing map, the
map holds exactly one entry per distinct coalescing key (no duplicate keys;
a key is present iff some call used it), the entry for each key is the
last-enqueued payload for that key, and the flush (firing with no blocking
issues and no batched engine updates) emits exactly those entries — one wire
message per distinct key — and clears the queue. -/
theorem c7_coalescing (calls : List (String × String × HmrAction)) (s : HotState)
    (hp : s.hmrPayloads = []) (hi : s.issues = []) (ht : s.turbopackUpdates = []) :
    ((runSendHmrs s calls).hmrPayloads.map Prod.fst).Nodup ∧
      (∀ k, k ∈ (runSendHmrs s calls).hmrPayloads.map Prod.fst ↔
        k ∈ calls.map coalesceKey) ∧
      (∀ k, mapGet (runSendHmrs s calls).hmrPayloads k =
        lastAssoc (calls.map (fun c => (coalesceKey c, c.2.2))) k) ∧
      (sendEnqueuedMessages (runSendHmrs s calls)).2 =
        (runSendHmrs s calls).hmrPayloads.map (fun p => p.2) ∧
      (sendEnqueuedMessages (runSendHmrs s calls)).1.hmrPayloads = [] := by
  obtain ⟨h1, h2, h3⟩ := runSendHmrs_proj calls s
  rw [hp] at h1
  have hfold : calls.foldl (fun m c => mapSet m (coalesceKey c) c.2.2) [] =
      (calls.map (fun c => (coalesceKey c, c.2.2))).foldl
        (fun m p => mapSet m p.1 p.2) [] := by
    rw [List.foldl_map]
  have hiss : (runSendHmrs s calls).issues = [] := h2.trans hi
  have htu : (runSendHmrs s calls).turbopackUpdates = [] := h3.trans ht
  refine ⟨?_, ?_, ?_, ?_, ?_⟩
  · rw [h1, hfold]
    exact foldl_mapSet_nodup _ [] (by simp)
  · intro k
    rw [h1, hfold, foldl_mapSet_mem_fst]
    simp [List.map_map, coalesceKey, Function.comp]
  · intro k
    rw [h1, hfold, foldl_mapSet_get]
    rw [show mapGet ([] : List (String × HmrAction)) k = none from rfl,
      Option.or_none]
  · unfold sendEnqueuedMessages
    rw [if_neg (by simp [hiss])]
    dsimp only
    rw [htu]
    simp
  · unfold sendEnqueuedMessages
    rw [if_neg (by simp [hiss])]

/-- A concrete burst: three calls over two distinct coalescing keys, the
first key written twice. -/
def c7Calls : List (String × String × HmrAction) :=
  [("endpoint-change", "a", HmrAction.clientChanges),
    ("endpoint-change", "a", HmrAction.middlewareChanges),
    ("endpoint-change", "b", HmrAction.reloadPage)]

/-- Witness for C7: applied to the concrete burst — no duplicate keys, and
the first key maps to its last-enqueued payload. -/
theorem c7_coalescing_witness :
    ((runSendHmrs initState c7Calls).hmrPayloads.map Prod.fst).Nodup ∧
      mapGet (runSendHmrs initState c7Calls).hmrPayloads "endpoint-change:a" =
        lastAssoc (c7Calls.map (fun c => (coalesceKey c, c.2.2)))
          "endpoint-change:a" := by
  obtain ⟨h1, -, h3, -, -⟩ := c7_coalescing c7Calls initState rfl rfl rfl
  exact ⟨h1, h3 "endpoint-change:a"⟩

/-! ## Claim C10 — connection ack and full-state sync -/

/-- C10: on accepting a client connection, the deliveries are exactly the
connection acknowledgement followed by the broadcast of the sync event; the
acknowledgement targets only the connecting client, while the sync event
(built from the flattened issue ledger) is delivered to every currently
connected client — the new one and all previously connected ones. -/
theorem c10_connect_sync (ext : Externals) (s : HotState) (client : Nat) :
    (onHMRConnect ext s client).2 =
        (client, HmrAction.turbopackConnected) ::
          broadcastSend (setAdd s.clients client)
            (HmrAction.sync
              (s.issues.flatMap fun b => b.2.map fun kv => formatIssue ext kv.2)) ∧
      (onHMRConnect ext s client).1.clients = setAdd s.clients client ∧
      (∀ c ∈ setAdd s.clients client,
        (c, HmrAction.sync
            (s.issues.flatMap fun b => b.2.map fun kv => formatIssue ext kv.2)) ∈
          (onHMRConnect ext s client).2) ∧
      (∀ p ∈ (onHMRConnect ext s client).2,
        p.2 = HmrAction.turbopackConnected → p.1 = client) := by
  refine ⟨rfl, rfl, ?_, ?_⟩
  · intro c hc
    exact List.mem_cons_of_mem _ (List.mem_map.mpr ⟨c, hc, rfl⟩)
  · intro p hp hack
    rcases List.mem_cons.mp hp with rfl | hp'
    · rfl
    · obtain ⟨c, -, rfl⟩ := List.mem_map.mp hp'
      exact absurd hack (by simp)

/-- Witness for C10: one previously connected client (5) and a new client
(7); client 5 receives the broadcast sync of the new connection. -/
theorem c10_connect_sync_witness :
    (onHMRConnect extId { initState with clients := [5] } 7).1.clients =
        setAdd [5] 7 ∧
      ((5 : Nat), HmrAction.sync ([] : List String)) ∈
        (onHMRConnect extId { initState with clients := [5] } 7).2 := by
  obtain ⟨-, h2, h3, -⟩ :=
    c10_connect_sync extId { initState with clients := [5] } 7
  exact ⟨h2, h3 5 (by decide)⟩

/-! ## Claim C5 — per-client raw engine subscriptions -/

theorem hmrStreamStep_proj (ext : Externals) (id : String) (s : HotState)
    (data : HmrItem) :
    (hmrStreamStep ext id s data).turbopackUpdates =
        s.turbopackUpdates ++ (if data.type != "issues" then [data] else []) ∧
      (hmrStreamStep ext id s data).clients = s.clients ∧
      (hmrStreamStep ext id s data).hmrPayloads = s.hmrPayloads := by
  unfold hmrStreamStep sendTurbopackMessage withIssues
  by_cases hd : (data.type != "issues") = true
  · rw [if_pos hd, if_pos hd]
    exact ⟨rfl, rfl, rfl⟩
  · rw [if_neg hd, if_neg hd]
    exact ⟨by simp, rfl, rfl⟩

theorem hmrStreamFold_proj (ext : Externals) (id : String)
    (items : List HmrItem) :
    ∀ s : HotState,
      (items.foldl (hmrStreamStep ext id) s).turbopackUpdates =
          s.turbopackUpdates ++ items.filter (fun d => d.type != "issues") ∧
        (items.foldl (hmrStreamStep ext id) s).clients = s.clients := by
  induction items with
  | nil => intro s; simp
  | cons d t ih =>
    intro s
    obtain ⟨h1, h2⟩ := ih (hmrStreamStep ext id s d)
    obtain ⟨hs1, hs2, -⟩ := hmrStreamStep_proj ext id s d
    constructor
    · rw [List.foldl_cons, h1, hs1]
      by_cases hd : (d.type != "issues") = true
      · have hfc : (d :: t).filter (fun d => d.type != "issues") =
            d :: t.filter (fun d => d.type != "issues") := by
          simp [List.filter_cons, hd]
        rw [if_pos hd, hfc, List.append_assoc]
        rfl
      · have hd' : (d.type != "issues") = false := by simpa using hd
        have hfc : (d :: t).filter (fun d => d.type != "issues") =
            t.filter (fun d => d.type != "issues") := by
          simp [List.filter_cons, hd']
        rw [if_neg hd, hfc, List.append_nil]
    · rw [List.foldl_cons, h2, hs2]

/-- C5 (amended): for a fresh raw subscription, the stream's first emitted
item is discarded and each later non-issue item is appended verbatim (in
order) to the **global** turbopack update batch; the client set is untouched,
and when the debounced flush fires with all issue buckets empty and a
non-empty batch, the batched update message is delivered to **every**
connected client — not only the subscribing one. -/
theorem c5_raw_subscription_amended (ext : Externals) (s : HotState)
    (id : String) (client : Nat) (first : HmrItem) (rest : List HmrItem)
    (hfresh : id ∉ (mapGet s.clientHmrSubscriptions client).getD []) :
    (subscribeToHmrEvents ext s id client (first :: rest)).turbopackUpdates =
        s.turbopackUpdates ++ rest.filter (fun d => d.type != "issues") ∧
      (subscribeToHmrEvents ext s id client (first :: rest)).clients =
        s.clients ∧
      ((∀ b ∈ (subscribeToHmrEvents ext s id client (first :: rest)).issues,
          b.2 = ([] : List (String × Issue))) →
        (subscribeToHmrEvents ext s id client (first :: rest)).turbopackUpdates ≠
          [] →
        ∀ c ∈ s.clients,
          (c, HmrAction.turbopackMessage
              (subscribeToHmrEvents ext s id client
                (first :: rest)).turbopackUpdates) ∈
            flushDeliveries (subscribeToHmrEvents ext s id client
              (first :: rest))) := by
  have hany : (((mapGet s.clientHmrSubscriptions client).getD []).any
      (fun x => x == id)) = false := by
    rw [List.any_eq_false]
    intro x hx
    simp only [beq_iff_eq]
    intro hxe
    exact hfresh (hxe ▸ hx)
  have hunfold : subscribeToHmrEvents ext s id client (first :: rest) =
      rest.foldl (hmrStreamStep ext id) (subscribeRegister s client id) := by
    unfold subscribeToHmrEvents
    rw [if_neg (by simp [hany])]
  obtain ⟨hf1, hf2⟩ :=
    hmrStreamFold_proj ext id rest (subscribeRegister s client id)
  refine ⟨?_, ?_, ?_⟩
  · rw [hunfold, hf1]
    rfl
  · rw [hunfold, hf2]
    rfl
  · intro hall hne c hc
    have hanyiss : ((subscribeToHmrEvents ext s id client
        (first :: rest)).issues.any fun b => !b.2.isEmpty) = false := by
      rw [List.any_eq_false]
      intro b hb
      simp [hall b hb]
    have hclients : (subscribeToHmrEvents ext s id client
        (first :: rest)).clients = s.clients := by
      rw [hunfold, hf2]
      rfl
    have hmsg : HmrAction.turbopackMessage
        (subscribeToHmrEvents ext s id client (first :: rest)).turbopackUpdates ∈
        (sendEnqueuedMessages (subscribeToHmrEvents ext s id client
          (first :: rest))).2 := by
      unfold sendEnqueuedMessages
      rw [if_neg (by simp [hanyiss])]
      have hie : (subscribeToHmrEvents ext s id client
          (first :: rest)).turbopackUpdates.isEmpty = false := by
        rcases h : (subscribeToHmrEvents ext s id client
            (first :: rest)).turbopackUpdates with _ | ⟨u, us⟩
        · exact absurd h hne
        · rfl
      dsimp only
      rw [hie]
      simp
    unfold flushDeliveries
    refine List.mem_flatMap.mpr ⟨_, hmsg, ?_⟩
    unfold broadcastSend
    exact List.mem_map.mpr ⟨c, hclients ▸ hc, rfl⟩

/-- The engine's initial throwaway item on a raw subscription. -/
def c5Item0 : HmrItem where
  type := "turbopack-update"
  issues := []
  payload := "initial"

/-- The first real update of the raw subscription. -/
def c5Item1 : HmrItem where
  type := "turbopack-update"
  issues := []
  payload := "second"

/-- Two connected clients; client 1 will subscribe. -/
def c5State : HotState := { initState with clients := [1, 2] }

/-- C5 counterexample: client 1 subscribes to raw updates for `"/x"`; the
stream's first item is discarded and the second is forwarded verbatim — but
through the global batch, so the flush delivers it to client 1 **and** to
client 2, contradicting delivery "only to that subscribing client". -/
theorem c5_counterexample :
    (subscribeToHmrEvents extId c5State "/x" 1 [c5Item0, c5Item1]).turbopackUpdates =
        [c5Item1] ∧
      flushDeliveries (subscribeToHmrEvents extId c5State "/x" 1
          [c5Item0, c5Item1]) =
        [(1, HmrAction.turbopackMessage [c5Item1]),
          (2, HmrAction.turbopackMessage [c5Item1])] :=
  ⟨rfl, rfl⟩

/-- Witness for C5: the amended theorem applied to the concrete two-client
scenario; the non-subscribing client 2 receives the forwarded update. -/
theorem c5_raw_subscription_witness :
    (subscribeToHmrEvents extId c5State "/x" 1 [c5Item0, c5Item1]).turbopackUpdates =
        c5State.turbopackUpdates ++
          [c5Item1].filter (fun d => d.type != "issues") ∧
      ((2 : Nat), HmrAction.turbopackMessage
          (subscribeToHmrEvents extId c5State "/x" 1
            [c5Item0, c5Item1]).turbopackUpdates) ∈
        flushDeliveries (subscribeToHmrEvents extId c5State "/x" 1
          [c5Item0, c5Item1]) := by
  obtain ⟨h1, -, h3⟩ :=
    c5_raw_subscription_amended extId c5State "/x" 1 c5Item0 [c5Item1]
      (by decide)
  refine ⟨h1, h3 ?_ ?_ 2 (by decide)⟩
  · intro b hb
    have he : (subscribeToHmrEvents extId c5State "/x" 1
        [c5Item0, c5Item1]).issues = [("/x", ([] : List (String × Issue)))] := rfl
    rw [he] at hb
    rw [List.mem_singleton.mp hb]
  · intro hemp
    exact List.cons_ne_nil c5Item1 [] hemp

/-! ## Claim C8 — directory diff correctness -/

theorem pruneStep_drop (curE curA : List (String × Route))
    (acc : List (String × String) × List String) (kv : String × String)
    (hraw : ¬ rawPathnameOf kv.1 = "")
    (he : mapHas curE (rawPathnameOf kv.1) = false)
    (ha : mapHas curA (rawPathnameOf kv.1) = false) :
    pruneStep curE curA acc kv = (acc.1, acc.2 ++ [kv.2]) := by
  unfold pruneStep
  rw [if_neg (by simpa using hraw), if_pos (by simp [he, ha])]

theorem pruneStep_fst_sub (curE curA : List (String × Route))
    (acc : List (String × String) × List String) (kv : String × String) :
    ∀ p ∈ (pruneStep curE curA acc kv).1, p ∈ acc.1 ∨ p = kv := by
  intro p hp
  unfold pruneStep at hp
  by_cases h1 : (rawPathnameOf kv.1 == "") = true
  · rw [if_pos h1] at hp
    simpa using List.mem_append.mp hp
  · rw [if_neg h1] at hp
    by_cases h2 : (!mapHas curE (rawPathnameOf kv.1) &&
        !mapHas curA (rawPathnameOf kv.1)) = true
    · rw [if_pos h2] at hp
      exact Or.inl hp
    · rw [if_neg h2] at hp
      simpa using List.mem_append.mp hp

theorem prune_snd_mono (curE curA : List (String × Route))
    (subs : List (String × String)) :
    ∀ (acc : List (String × String) × List String) (x : String), x ∈ acc.2 →
      x ∈ (subs.foldl (pruneStep curE curA) acc).2 := by
  induction subs with
  | nil => intro acc x hx; exact hx
  | cons kv t ih =>
    intro acc x hx
    rw [List.foldl_cons]
    apply ih
    unfold pruneStep
    by_cases h1 : (rawPathnameOf kv.1 == "") = true
    · rw [if_pos h1]; exact hx
    · rw [if_neg h1]
      by_cases h2 : (!mapHas curE (rawPathnameOf kv.1) &&
          !mapHas curA (rawPathnameOf kv.1)) = true
      · rw [if_pos h2]
        exact List.mem_append.mpr (Or.inl hx)
      · rw [if_neg h2]; exact hx

theorem prune_closes (curE curA : List (String × Route))
    (subs : List (String × String)) :
    ∀ (acc : List (String × String) × List String) (kv : String × String),
      kv ∈ subs → ¬ rawPathnameOf kv.1 = "" →
      mapHas curE (rawPathnameOf kv.1) = false →
      mapHas curA (rawPathnameOf kv.1) = false →
      kv.2 ∈ (subs.foldl (pruneStep curE curA) acc).2 := by
  induction subs with
  | nil => intro acc kv hkv; simp at hkv
  | cons kv0 t ih =>
    intro acc kv hkv hraw he ha
    rcases List.mem_cons.mp hkv with rfl | hkv'
    · rw [List.foldl_cons, pruneStep_drop curE curA acc kv hraw he ha]
      exact prune_snd_mono curE curA t _ kv.2
        (List.mem_append.mpr (Or.inr (List.mem_singleton.mpr rfl)))
    · rw [List.foldl_cons]
      exact ih _ kv hkv' hraw he ha

theorem prune_removes (curE curA : List (String × Route))
    (subs : List (String × String)) :
    ∀ (acc : List (String × String) × List String) (key : String),
      ¬ rawPathnameOf key = "" →
      mapHas curE (rawPathnameOf key) = false →
      mapHas curA (rawPathnameOf key) = false →
      key ∉ acc.1.map Prod.fst →
      key ∉ (subs.foldl (pruneStep curE curA) acc).1.map Prod.fst := by
  induction subs with
  | nil => intro acc key _ _ _ hacc; exact hacc
  | cons kv0 t ih =>
    intro acc key hraw he ha hacc
    rw [List.foldl_cons]
    apply ih _ key hraw he ha
    by_cases hk : kv0.1 = key
    · rw [show pruneStep curE curA acc kv0 = (acc.1, acc.2 ++ [kv0.2]) from
        pruneStep_drop curE curA acc kv0 (hk ▸ hraw) (hk ▸ he) (hk ▸ ha)]
      exact hacc
    · intro hmem
      obtain ⟨p, hp, hpk⟩ := List.mem_map.mp hmem
      rcases pruneStep_fst_sub curE curA acc kv0 p hp with hp' | rfl
      · exact hacc (List.mem_map.mpr ⟨p, hp', hpk⟩)
      · exact hk hpk

theorem issues_filter_removes (curE : List (String × Route)) (issues : Issues) :
    ∀ k, mapHas curE k = false →
      k ∉ (issues.filter (fun b => mapHas curE b.1)).map Prod.fst := by
  intro k hk hmem
  obtain ⟨b, hb, hbk⟩ := List.mem_map.mp hmem
  have := List.of_mem_filter hb
  rw [hbk, hk] at this
  exact Bool.false_ne_true this

/-- C8 (amended): after the directory-rebuild-and-diff for a snapshot S2,
every change subscription whose unit key (the raw pathname of its
registry key) is **non-empty** and absent from both directory maps of S2 has
been closed (its handle is in the closed list) and removed from the
registry; the diff explicitly skips subscriptions whose raw pathname is the
empty string (a vestigial middleware carve-out).  Every issue-ledger bucket
whose key is absent from S2's pathname map — in particular every bucket
whose key is absent from both maps — has been deleted. -/
theorem c8_diff_amended (s : HotState) (entrypoints : Entrypoints) :
    (∀ kv ∈ s.changeSubscriptions,
        ¬ rawPathnameOf kv.1 = "" →
        mapHas (handleEntriesDiff s entrypoints).1.curEntries
          (rawPathnameOf kv.1) = false →
        mapHas (handleEntriesDiff s entrypoints).1.curAppEntries
          (rawPathnameOf kv.1) = false →
        kv.2 ∈ (handleEntriesDiff s entrypoints).2 ∧
          kv.1 ∉
            (handleEntriesDiff s entrypoints).1.changeSubscriptions.map
              Prod.fst) ∧
    (∀ k, mapHas (handleEntriesDiff s entrypoints).1.curEntries k = false →
        k ∉ (handleEntriesDiff s entrypoints).1.issues.map Prod.fst) := by
  constructor
  · intro kv hkv hraw he ha
    constructor
    · exact prune_closes (repopulateEntries entrypoints.routes).1
        (repopulateEntries entrypoints.routes).2 s.changeSubscriptions
        ([], []) kv hkv hraw he ha
    · exact prune_removes (repopulateEntries entrypoints.routes).1
        (repopulateEntries entrypoints.routes).2 s.changeSubscriptions
        ([], []) kv.1 hraw he ha (by simp)
  · intro k hk
    exact issues_filter_removes (repopulateEntries entrypoints.routes).1
      s.issues k hk

/-- A registry holding one subscription whose key has an empty raw pathname
(page name `""`, phase server). -/
def c8State : HotState :=
  { initState with changeSubscriptions := [(" (server)", "sub0")] }

/-- An empty entrypoint snapshot: both directory maps end up empty. -/
def c8Snapshot : Entrypoints := ⟨[]⟩

/-- C8 counterexample: after processing a snapshot with no routes, the
subscription keyed `" (server)"` — whose unit key `""` is absent from both
(empty) directory maps — is neither closed nor removed: the diff loop
explicitly skips the empty raw pathname.  This falsifies the claim as
stated for that subscription. -/
theorem c8_counterexample :
    rawPathnameOf " (server)" = "" ∧
      mapHas (handleEntriesDiff c8State c8Snapshot).1.curEntries "" = false ∧
      mapHas (handleEntriesDiff c8State c8Snapshot).1.curAppEntries "" = false ∧
      (handleEntriesDiff c8State c8Snapshot).1.changeSubscriptions =
        [(" (server)", "sub0")] ∧
      (handleEntriesDiff c8State c8Snapshot).2 = [] :=
  ⟨rfl, rfl, rfl, rfl, rfl⟩

/-- Witness for C8: a subscription for the vanished page `/gone` (key
`"/gone (server)"`) is closed and removed when the snapshot is empty, and
the issue bucket of a vanished unit is deleted. -/
theorem c8_diff_witness :
    ("sub1" ∈
        (handleEntriesDiff
          { initState with
              changeSubscriptions := [("/gone (server)", "sub1")]
              issues := [("/gone", [("k", errIssue)])] }
          c8Snapshot).2 ∧
      "/gone (server)" ∉
        (handleEntriesDiff
          { initState with
              changeSubscriptions := [("/gone (server)", "sub1")]
              issues := [("/gone", [("k", errIssue)])] }
          c8Snapshot).1.changeSubscriptions.map Prod.fst) ∧
    "/gone" ∉
      (handleEntriesDiff
        { initState with
            changeSubscriptions := [("/gone (server)", "sub1")]
            issues := [("/gone", [("k", errIssue)])] }
        c8Snapshot).1.issues.map Prod.fst := by
  obtain ⟨h1, h2⟩ := c8_diff_amended
    { initState with
        changeSubscriptions := [("/gone (server)", "sub1")]
        issues := [("/gone", [("k", errIssue)])] }
    c8Snapshot
  exact ⟨h1 ("/gone (server)", "sub1") (by decide) (by decide) rfl rfl,
    h2 "/gone" rfl⟩

/-! ## Claim C9 — not-found handling in `ensurePage` -/

theorem ensureErrorPage_thrown (ext : Externals) (env : String → WrittenEndpoint)
    (ge : GlobalEntries) (s : HotState) (page pathname : String)
    (url : Option String) :
    (ensureErrorPage ext env ge s page pathname url).thrown = none := by
  unfold ensureErrorPage
  cases hga : ge.app <;> cases hgd : ge.document <;> cases hge : ge.error <;> rfl

/-- C9 (amended): for a request that resolves to a page with no entry in
either directory map, `ensurePage` returns silently when the raw input page
is blocked (`BLOCKED_PAGES` minus `/_error`), when the resolved page is
`/_error` (which takes the dedicated fallback-shell build path and never
consults the directory), or when the resolved page is one of the six exempt
special names; for every other page it throws
`PageNotFoundError("route not found " + page)`. -/
theorem c9_not_found_amended (ext : Externals) (env : String → WrittenEndpoint)
    (ge : GlobalEntries) (blockedPages : List String)
    (resolved : RouteDefinition) (s : HotState) (inputPage : String)
    (definition : Option RouteDefinition) (isApp : Bool) (url : Option String)
    (hpn : ∀ p, definition.bind (fun d => d.pathname) = some p →
      mapGet s.curEntries p = none)
    (hpe : mapGet s.curEntries (definition.getD resolved).page = none)
    (hpa : mapGet s.curAppEntries (definition.getD resolved).page = none) :
    (ensurePage ext env ge blockedPages resolved s inputPage definition isApp
        url).thrown =
      (if inputPage != "/_error" && blockedPages.any (fun p => p == inputPage)
        then none
        else if (definition.getD resolved).page == "/_error" then none
        else if (definition.getD resolved).page == "/_app" ||
            (definition.getD resolved).page == "/_document" ||
            (definition.getD resolved).page == "/middleware" ||
            (definition.getD resolved).page == "/src/middleware" ||
            (definition.getD resolved).page == "/instrumentation" ||
            (definition.getD resolved).page == "/src/instrumentation" then none
        else some (.pageNotFoundError
          ("route not found " ++ (definition.getD resolved).page))) := by
  unfold ensurePage
  by_cases hb : (inputPage != "/_error" &&
      blockedPages.any (fun p => p == inputPage)) = true
  · rw [if_pos hb, if_pos hb]
  · rw [if_neg hb, if_neg hb]
    dsimp only
    by_cases herr : ((definition.getD resolved).page == "/_error") = true
    · rw [if_pos herr, if_pos herr]
      exact ensureErrorPage_thrown ext env ge s (definition.getD resolved).page
        ((definition.bind (fun d => d.pathname)).getD inputPage) url
    · rw [if_neg herr, if_neg herr]
      have hroute :
          (if ((definition.bind (fun d => d.pathname)).getD "") != "" then
            mapGet s.curEntries ((definition.bind (fun d => d.pathname)).getD "")
          else if isApp then
            mapGet s.curAppEntries (definition.getD resolved).page
          else mapGet s.curEntries (definition.getD resolved).page) = none := by
        rcases hdp : definition.bind (fun d => d.pathname) with _ | p
        · simp only [hdp, Option.getD_none]
          rw [if_neg (by simp)]
          cases isApp
          · simpa using hpe
          · simpa using hpa
        · simp only [hdp, Option.getD_some]
          by_cases hp : (p != "") = true
          · rw [if_pos hp]
            exact hpn p hdp
          · rw [if_neg hp]
            cases isApp
            · simpa using hpe
            · simpa using hpa
      rw [hroute]
      dsimp only
      by_cases hsix : ((definition.getD resolved).page == "/_app" ||
          (definition.getD resolved).page == "/_document" ||
          (definition.getD resolved).page == "/middleware" ||
          (definition.getD resolved).page == "/src/middleware" ||
          (definition.getD resolved).page == "/instrumentation" ||
          (definition.getD resolved).page == "/src/instrumentation") = true
      · rw [if_pos hsix, if_pos hsix]
      · rw [if_neg hsix, if_neg hsix]

/-- The definition a request for the error shell resolves to. -/
def c9Def : RouteDefinition where
  page := "/_error"
  pathname := some "/_error"

/-- C9 counterexample: the resolved page `/_error` has no entry in either
(empty) directory map and is none of the six exempt special names, yet
`ensurePage` returns silently (building the fallback shells) instead of
failing with `PageNotFoundError`. -/
theorem c9_counterexample :
    (ensurePage extId (fun _ => ⟨⟨[]⟩, "nodejs", []⟩) ⟨none, none, none⟩
        ["/_document", "/_app", "/_error"] c9Def initState "/_error"
        (some c9Def) false none).thrown = none ∧
      mapGet initState.curEntries "/_error" = none ∧
      mapGet initState.curAppEntries "/_error" = none ∧
      (("/_error" : String) == "/_app" || ("/_error" : String) == "/_document" ||
        ("/_error" : String) == "/middleware" ||
        ("/_error" : String) == "/src/middleware" ||
        ("/_error" : String) == "/instrumentation" ||
        ("/_error" : String) == "/src/instrumentation") = false :=
  ⟨rfl, rfl, rfl, rfl⟩

/-- Witness for C9: a plain missing page throws `PageNotFoundError`, an
exempt special name is silently accepted, and a request whose resolved page
is `/_error` is silently accepted. -/
theorem c9_not_found_witness :
    (ensurePage extId (fun _ => ⟨⟨[]⟩, "nodejs", []⟩) ⟨none, none, none⟩
        ["/_document", "/_app", "/_error"] ⟨"/nope", none⟩ initState "/nope"
        none false none).thrown =
        some (.pageNotFoundError "route not found /nope") ∧
      (ensurePage extId (fun _ => ⟨⟨[]⟩, "nodejs", []⟩) ⟨none, none, none⟩
        ["/_document", "/_app", "/_error"] ⟨"/middleware", none⟩ initState
        "/middleware" none false none).thrown = none := by
  constructor
  · exact (c9_not_found_amended extId (fun _ => ⟨⟨[]⟩, "nodejs", []⟩)
      ⟨none, none, none⟩ ["/_document", "/_app", "/_error"] ⟨"/nope", none⟩
      initState "/nope" none false none
      (fun p hp => Option.noConfusion hp) rfl rfl).trans rfl
  · exact (c9_not_found_amended extId (fun _ => ⟨⟨[]⟩, "nodejs", []⟩)
      ⟨none, none, none⟩ ["/_document", "/_app", "/_error"] ⟨"/middleware", none⟩
      initState "/middleware" none false none
      (fun p hp => Option.noConfusion hp) rfl rfl).trans rfl

/-! ## Projection lemmas for the materialization pipeline -/

theorem finishBuilding_none (s : HotState) : finishBuilding s none = s := rfl

theorem writeToDisk_fst_readyIds (env : String → WrittenEndpoint) (s : HotState)
    (ep : String) : ((writeToDisk env s ep).1).readyIds = s.readyIds := rfl

theorem writeToDisk_fst_buildingIds (env : String → WrittenEndpoint)
    (s : HotState) (ep : String) :
    ((writeToDisk env s ep).1).buildingIds = s.buildingIds := rfl

theorem writeToDisk_fst_writeCounts (env : String → WrittenEndpoint)
    (s : HotState) (ep : String) :
    ((writeToDisk env s ep).1).writeCounts = bumpCount s.writeCounts ep := rfl

theorem writeToDisk_snd (env : String → WrittenEndpoint) (s : HotState)
    (ep : String) : (writeToDisk env s ep).2 = env ep := rfl

theorem hrcc_snd (s : HotState) (id : String) (r : WrittenEndpoint) :
    (handleRequireCacheClearing s id r).2 = r := rfl

theorem hrcc_fst_readyIds (s : HotState) (id : String) (r : WrittenEndpoint) :
    ((handleRequireCacheClearing s id r).1).readyIds = s.readyIds := rfl

theorem hrcc_fst_buildingIds (s : HotState) (id : String) (r : WrittenEndpoint) :
    ((handleRequireCacheClearing s id r).1).buildingIds = s.buildingIds := rfl

theorem hrcc_fst_writeCounts (s : HotState) (id : String) (r : WrittenEndpoint) :
    ((handleRequireCacheClearing s id r).1).writeCounts = s.writeCounts := rfl

theorem withIssues_readyIds (s : HotState) (i : Issues) :
    (withIssues s i).readyIds = s.readyIds := rfl

theorem withIssues_buildingIds (s : HotState) (i : Issues) :
    (withIssues s i).buildingIds = s.buildingIds := rfl

theorem withIssues_writeCounts (s : HotState) (i : Issues) :
    (withIssues s i).writeCounts = s.writeCounts := rfl

theorem csr_readyIds (s : HotState) (page type : String) (ep : Option String) :
    (changeSubscriptionRegister s page type ep).readyIds = s.readyIds := by
  unfold changeSubscriptionRegister
  cases ep
  · rfl
  · dsimp only
    split <;> rfl

theorem csr_buildingIds (s : HotState) (page type : String) (ep : Option String) :
    (changeSubscriptionRegister s page type ep).buildingIds = s.buildingIds := by
  unfold changeSubscriptionRegister
  cases ep
  · rfl
  · dsimp only
    split <;> rfl

theorem csr_writeCounts (s : HotState) (page type : String) (ep : Option String) :
    (changeSubscriptionRegister s page type ep).writeCounts = s.writeCounts := by
  unfold changeSubscriptionRegister
  cases ep
  · rfl
  · dsimp only
    split <;> rfl

theorem bumpCount_get_self (m : List (String × Nat)) (k : String) :
    mapGet (bumpCount m k) k = some ((mapGet m k).getD 0 + 1) := by
  unfold bumpCount
  rcases h : mapGet m k with _ | n
  · rw [mapGet_mapSet_self]
    rfl
  · rw [mapGet_mapSet_self]
    rfl

theorem bumpCount_getD_self (m : List (String × Nat)) (k : String) :
    (mapGet (bumpCount m k) k).getD 0 = (mapGet m k).getD 0 + 1 := by
  rw [bumpCount_get_self]
  rfl

theorem bumpCount_get_ne (m : List (String × Nat)) (k k' : String)
    (h : k' ≠ k) : mapGet (bumpCount m k) k' = mapGet m k' := by
  unfold bumpCount
  rcases mapGet m k with _ | n <;> rw [mapGet_mapSet_ne _ _ _ _ h]

/-- The number of `writeToDisk` invocations recorded for one endpoint. -/
def writeCountOf (s : HotState) (ep : String) : Nat :=
  (mapGet s.writeCounts ep).getD 0

/-! ## Claim C3 — the ready check does not skip materialization -/

theorem handleRouteType_ready_step (ext : Externals)
    (env : String → WrittenEndpoint) (ge : GlobalEntries) (s : HotState)
    (page pathname : String) (route : Route) (url : Option String) (ep : String)
    (hready : pathname ∈ s.readyIds)
    (hep : routeMainEndpoint route page = some ep)
    (hga : ge.app ≠ some ep) (hgd : ge.document ≠ some ep) :
    (handleRouteType ext env ge s page pathname route url).state.readyIds =
        s.readyIds ∧
      (handleRouteType ext env ge s page pathname route url).state.buildingIds =
        s.buildingIds ∧
      writeCountOf (handleRouteType ext env ge s page pathname route url).state
          ep =
        writeCountOf s ep + 1 := by
  have hstart : startBuilding s pathname url false = (s, none) :=
    startBuilding_ready s pathname url
      (List.any_eq_true.mpr ⟨pathname, hready, by simp⟩)
  cases route with
  | page html dataEp =>
    have hepe : html = ep := by simpa [routeMainEndpoint] using hep
    subst hepe
    unfold handleRouteType
    rw [hstart]
    dsimp only
    cases hga' : ge.app with
    | none =>
      cases hgd' : ge.document with
      | none =>
        refine ⟨?_, ?_, ?_⟩
        · simp [finishBuilding_none, csr_readyIds, withIssues_readyIds,
            hrcc_fst_readyIds, writeToDisk_fst_readyIds]
        · simp [finishBuilding_none, csr_buildingIds, withIssues_buildingIds,
            hrcc_fst_buildingIds, writeToDisk_fst_buildingIds]
        · simp only [finishBuilding_none, csr_writeCounts, writeCountOf,
            withIssues_writeCounts, hrcc_fst_writeCounts,
            writeToDisk_fst_writeCounts]
          rw [bumpCount_getD_self]
      | some docEp =>
        have hdne : html ≠ docEp := fun h => hgd (by rw [hgd', h])
        refine ⟨?_, ?_, ?_⟩
        · simp [finishBuilding_none, csr_readyIds, withIssues_readyIds,
            hrcc_fst_readyIds, writeToDisk_fst_readyIds]
        · simp [finishBuilding_none, csr_buildingIds, withIssues_buildingIds,
            hrcc_fst_buildingIds, writeToDisk_fst_buildingIds]
        · simp only [finishBuilding_none, csr_writeCounts, writeCountOf,
            withIssues_writeCounts, hrcc_fst_writeCounts,
            writeToDisk_fst_writeCounts]
          rw [bumpCount_getD_self, bumpCount_get_ne _ _ _ hdne]
    | some appEp =>
      have hane : html ≠ appEp := fun h => hga (by rw [hga', h])
      cases hgd' : ge.document with
      | none =>
        refine ⟨?_, ?_, ?_⟩
        · simp [finishBuilding_none, csr_readyIds, withIssues_readyIds,
            hrcc_fst_readyIds, writeToDisk_fst_readyIds]
        · simp [finishBuilding_none, csr_buildingIds, withIssues_buildingIds,
            hrcc_fst_buildingIds, writeToDisk_fst_buildingIds]
        · simp only [finishBuilding_none, csr_writeCounts, writeCountOf,
            withIssues_writeCounts, hrcc_fst_writeCounts,
            writeToDisk_fst_writeCounts]
          rw [bumpCount_getD_self, bumpCount_get_ne _ _ _ hane]
      | some docEp =>
        have hdne : html ≠ docEp := fun h => hgd (by rw [hgd', h])
        refine ⟨?_, ?_, ?_⟩
        · simp [finishBuilding_none, csr_readyIds, withIssues_readyIds,
            hrcc_fst_readyIds, writeToDisk_fst_readyIds]
        · simp [finishBuilding_none, csr_buildingIds, withIssues_buildingIds,
            hrcc_fst_buildingIds, writeToDisk_fst_buildingIds]
        · simp only [finishBuilding_none, csr_writeCounts, writeCountOf,
            withIssues_writeCounts, hrcc_fst_writeCounts,
            writeToDisk_fst_writeCounts]
          rw [bumpCount_getD_self, bumpCount_get_ne _ _ _ hdne,
            bumpCount_get_ne _ _ _ hane]
  | pageApi endpoint =>
    have hepe : endpoint = ep := by simpa [routeMainEndpoint] using hep
    subst hepe
    unfold handleRouteType
    rw [hstart]
    refine ⟨rfl, rfl, ?_⟩
    show (mapGet (bumpCount s.writeCounts endpoint) endpoint).getD 0 =
      (mapGet s.writeCounts endpoint).getD 0 + 1
    rw [bumpCount_getD_self]
  | appPage pages =>
    rcases hfind : (pages.find? (fun p => p.originalName == page)).orElse
        (fun _ => pages.head?) with _ | pr
    · exfalso
      simp only [routeMainEndpoint, hfind, Option.map_none'] at hep
      exact Option.noConfusion hep
    · have hepe : pr.htmlEndpoint = ep := by
        simpa [routeMainEndpoint, hfind] using hep
      subst hepe
      unfold handleRouteType
      rw [hstart]
      dsimp only
      rw [hfind]
      dsimp only
      refine ⟨?_, ?_, ?_⟩
      · simp [finishBuilding_none, csr_readyIds, withIssues_readyIds,
          hrcc_fst_readyIds, writeToDisk_fst_readyIds]
      · simp [finishBuilding_none, csr_buildingIds, withIssues_buildingIds,
          hrcc_fst_buildingIds, writeToDisk_fst_buildingIds]
      · simp only [finishBuilding_none, csr_writeCounts, writeCountOf,
          withIssues_writeCounts, hrcc_fst_writeCounts,
          writeToDisk_fst_writeCounts]
        rw [bumpCount_getD_self]
  | appRoute orig endpoint =>
    have hepe : endpoint = ep := by simpa [routeMainEndpoint] using hep
    subst hepe
    unfold handleRouteType
    rw [hstart]
    refine ⟨rfl, rfl, ?_⟩
    show (mapGet (bumpCount s.writeCounts endpoint) endpoint).getD 0 =
      (mapGet s.writeCounts endpoint).getD 0 + 1
    rw [bumpCount_getD_self]

/-- C3 (amended): for a unit already in "ready", each of two consecutive
`handleRouteType` calls (the materializing body of `ensurePage`) with
`forceRebuild = false` still invokes `writeToDisk` on the unit's endpoint —
two invocations in total, not at most one.  The ready check only
short-circuits the build-state tracking: `startBuilding` returns the inert
handle, and the building/ready sets are unchanged by both calls
(deduplication of the actual compilation is delegated to the engine). -/
theorem c3_ready_not_shortcircuited_amended (ext : Externals)
    (env : String → WrittenEndpoint) (ge : GlobalEntries) (s : HotState)
    (page pathname : String) (route : Route) (url : Option String) (ep : String)
    (hready : pathname ∈ s.readyIds)
    (hep : routeMainEndpoint route page = some ep)
    (hga : ge.app ≠ some ep) (hgd : ge.document ≠ some ep) :
    (handleRouteType ext env ge
        (handleRouteType ext env ge s page pathname route url).state
        page pathname route url).state.readyIds = s.readyIds ∧
      (handleRouteType ext env ge
        (handleRouteType ext env ge s page pathname route url).state
        page pathname route url).state.buildingIds = s.buildingIds ∧
      writeCountOf (handleRouteType ext env ge
        (handleRouteType ext env ge s page pathname route url).state
        page pathname route url).state ep = writeCountOf s ep + 2 := by
  obtain ⟨h1, h2, h3⟩ :=
    handleRouteType_ready_step ext env ge s page pathname route url ep hready
      hep hga hgd
  obtain ⟨h1', h2', h3'⟩ :=
    handleRouteType_ready_step ext env ge
      (handleRouteType ext env ge s page pathname route url).state
      page pathname route url ep (h1.symm ▸ hready) hep hga hgd
  refine ⟨h1'.trans h1, h2'.trans h2, ?_⟩
  rw [h3', h3]

/-- The app route used for the C3 scenario. -/
def c3Route : Route := .appRoute "/r" "ep1"

/-- A state in which the unit `/r` is already ready. -/
def c3State : HotState := { initState with readyIds := ["/r"] }

/-- An engine whose `writeToDisk` reports no issues. -/
def c3Env : String → WrittenEndpoint := fun _ => ⟨⟨[]⟩, "nodejs", []⟩

/-- C3 counterexample: the unit `/r` is already ready, yet two consecutive
materializing calls with `forceRebuild = false` record **two** `writeToDisk`
invocations for the unit's endpoint — the second call is not short-circuited
by the ready check (only the build-state bookkeeping is). -/
theorem c3_counterexample :
    "/r" ∈ c3State.readyIds ∧
      writeCountOf (handleRouteType extId c3Env ⟨none, none, none⟩
        (handleRouteType extId c3Env ⟨none, none, none⟩ c3State "/r" "/r"
          c3Route none).state
        "/r" "/r" c3Route none).state "ep1" = 2 ∧
      (handleRouteType extId c3Env ⟨none, none, none⟩
        (handleRouteType extId c3Env ⟨none, none, none⟩ c3State "/r" "/r"
          c3Route none).state
        "/r" "/r" c3Route none).state.readyIds = c3State.readyIds :=
  ⟨by decide, rfl, rfl⟩

/-- Witness for C3: the amended theorem applied to the concrete ready
app-route scenario. -/
theorem c3_ready_not_shortcircuited_witness :
    (handleRouteType extId c3Env ⟨none, none, none⟩
        (handleRouteType extId c3Env ⟨none, none, none⟩ c3State "/r" "/r"
          c3Route none).state
        "/r" "/r" c3Route none).state.readyIds = c3State.readyIds ∧
      writeCountOf (handleRouteType extId c3Env ⟨none, none, none⟩
        (handleRouteType extId c3Env ⟨none, none, none⟩ c3State "/r" "/r"
          c3Route none).state
        "/r" "/r" c3Route none).state "ep1" = writeCountOf c3State "ep1" + 2 := by
  obtain ⟨h1, -, h3⟩ :=
    c3_ready_not_shortcircuited_amended extId c3Env ⟨none, none, none⟩ c3State
      "/r" "/r" c3Route none "ep1" (by decide) rfl (by decide) (by decide)
  exact ⟨h1, h3⟩

/-! ## Claim C1 — throwing materialization and the ready set -/

theorem mem_ready_finish (s : HotState) (pathname : String) (url : Option String)
    (t : HotState)
    (hr : t.readyIds = (startBuilding s pathname url false).1.readyIds)
    (hb : t.buildingIds = (startBuilding s pathname url false).1.buildingIds) :
    pathname ∈ (finishBuilding t (startBuilding s pathname url false).2).readyIds := by
  by_cases hrd : (s.readyIds.any fun x => x == pathname) = true
  · rw [startBuilding_ready s pathname url hrd] at hr hb ⊢
    rw [finishBuilding_none, hr]
    obtain ⟨x, hx, hxe⟩ := List.any_eq_true.mp hrd
    exact (beq_iff_eq.mp hxe) ▸ hx
  · have hcond : (!false && s.readyIds.any fun x => x == pathname) = false := by
      simp only [Bool.not_eq_true] at hrd
      simp [hrd]
    obtain ⟨hb', hr', hh⟩ := startBuilding_proj s pathname url false hcond
    rw [hh]
    have hlen : ¬ t.buildingIds.length = 0 := by
      rw [hb, hb']
      intro h0
      exact setAdd_ne_nil s.buildingIds pathname (List.length_eq_zero.mp h0)
    obtain ⟨hfr, -⟩ := finishBuilding_proj t pathname hlen
    rw [hfr]
    exact mem_setAdd.mpr (Or.inr rfl)

/-- C1 (amended): for an app-page or app-route unit whose materialization
reports at least one error-severity issue whose file path is not under a
dependency (`node_modules`) path, `handleRouteType` (the materializing body
of `ensurePage`) throws a `ModuleBuildError` whose message contains that
issue's formatted message — but after the throw the unit's key **is** a
member of the ready set: the `finally`-block completion handle runs on the
throwing path too and moves the key from "building" to "ready". -/
theorem c1_throwing_materialization_amended (ext : Externals)
    (env : String → WrittenEndpoint) (ge : GlobalEntries) (s : HotState)
    (page pathname : String) (route : Route) (url : Option String)
    (ep : String) (issue : Issue)
    (hkind : routeThrowsOnIssue route = true)
    (hep : routeMainEndpoint route page = some ep)
    (hmem : issue ∈ (env ep).issues)
    (hsev : issue.severity = "error")
    (hnm : isNodeModulesPath issue.filePath = false) :
    (∃ msg, (handleRouteType ext env ge s page pathname route url).thrown =
        some (.moduleBuildError msg) ∧
      ∃ l r, msg = l ++ formatIssue ext issue ++ r) ∧
    pathname ∈
      (handleRouteType ext env ge s page pathname route url).state.readyIds := by
  have hqual : qualRel issue = true := by
    unfold qualRel qualSev
    rw [hsev, hnm]
    simp
  cases route with
  | page html dataEp => exact absurd hkind (by simp [routeThrowsOnIssue])
  | pageApi endpoint => exact absurd hkind (by simp [routeThrowsOnIssue])
  | appPage pages =>
    rcases hfind : (pages.find? (fun p => p.originalName == page)).orElse
        (fun _ => pages.head?) with _ | pr
    · exfalso
      simp only [routeMainEndpoint, hfind, Option.map_none'] at hep
      exact Option.noConfusion hep
    · have hepe : pr.htmlEndpoint = ep := by
        simpa [routeMainEndpoint, hfind] using hep
      subst hepe
      have hrel : formatIssue ext issue ∈
          (processIssuesAccum ext (env pr.htmlEndpoint).issues).2 :=
        formatted_mem_relevant ext (env pr.htmlEndpoint).issues ([], []) issue
          hmem hqual
      have hne : (processIssuesAccum ext (env pr.htmlEndpoint).issues).2 ≠ [] :=
        fun h0 => absurd (h0 ▸ hrel) (List.not_mem_nil _)
      have hcond : ((processIssuesAccum ext
          (env pr.htmlEndpoint).issues).2.length != 0 && true) = true := by
        rw [Bool.and_true, bne_iff_ne]
        exact fun h => hne (List.length_eq_zero.mp h)
      unfold handleRouteType
      dsimp only
      rw [hfind]
      dsimp only
      constructor
      · rw [processIssues_spec]
        dsimp only
        rw [hrcc_snd, writeToDisk_snd]
        rw [if_pos hcond]
        exact ⟨_, rfl, joinSep_infix "\n\n" hrel⟩
      · apply mem_ready_finish s pathname url
        · simp [withIssues_readyIds, csr_readyIds, hrcc_fst_readyIds,
            writeToDisk_fst_readyIds]
        · simp [withIssues_buildingIds, csr_buildingIds, hrcc_fst_buildingIds,
            writeToDisk_fst_buildingIds]
  | appRoute orig endpoint =>
    have hepe : endpoint = ep := by simpa [routeMainEndpoint] using hep
    subst hepe
    have hrel : formatIssue ext issue ∈
        (processIssuesAccum ext (env endpoint).issues).2 :=
      formatted_mem_relevant ext (env endpoint).issues ([], []) issue hmem hqual
    have hne : (processIssuesAccum ext (env endpoint).issues).2 ≠ [] :=
      fun h0 => absurd (h0 ▸ hrel) (List.not_mem_nil _)
    have hcond : ((processIssuesAccum ext
        (env endpoint).issues).2.length != 0 && true) = true := by
      rw [Bool.and_true, bne_iff_ne]
      exact fun h => hne (List.length_eq_zero.mp h)
    unfold handleRouteType
    dsimp only
    constructor
    · rw [processIssues_spec]
      dsimp only
      rw [hrcc_snd, writeToDisk_snd]
      rw [if_pos hcond]
      exact ⟨_, rfl, joinSep_infix "\n\n" hrel⟩
    · apply mem_ready_finish s pathname url
      · simp [withIssues_readyIds, hrcc_fst_readyIds, writeToDisk_fst_readyIds]
      · simp [withIssues_buildingIds, hrcc_fst_buildingIds,
          writeToDisk_fst_buildingIds]

/-- The engine response for the broken app route: one error-severity issue
outside any dependency path. -/
def c1Env : String → WrittenEndpoint := fun _ => ⟨⟨[errIssue]⟩, "nodejs", []⟩

/-- C1 counterexample: materializing the app route `/broken` reports one
error-severity issue not under a dependency path; `handleRouteType` throws a
`ModuleBuildError` — yet afterwards `/broken` **is** a member of the ready
set, because the `finally` completion handle runs on the throwing path.
This falsifies the claim that the key is left out of "ready". -/
theorem c1_counterexample :
    (∃ msg, (handleRouteType extId c1Env ⟨none, none, none⟩ initState "/broken"
        "/broken" (.appRoute "/broken" "ep1") none).thrown =
      some (.moduleBuildError msg)) ∧
      "/broken" ∈ (handleRouteType extId c1Env ⟨none, none, none⟩ initState
        "/broken" "/broken" (.appRoute "/broken" "ep1") none).state.readyIds ∧
      errIssue.severity = "error" ∧
      isNodeModulesPath errIssue.filePath = false :=
  ⟨⟨_, rfl⟩, by decide, rfl, by decide⟩

/-- Witness for C1: the amended theorem applied to the concrete broken
app route. -/
theorem c1_throwing_materialization_witness :
    (∃ msg, (handleRouteType extId c1Env ⟨none, none, none⟩ initState "/broken"
        "/broken" (.appRoute "/broken" "ep1") none).thrown =
          some (.moduleBuildError msg) ∧
        ∃ l r, msg = l ++ formatIssue extId errIssue ++ r) ∧
      "/broken" ∈ (handleRouteType extId c1Env ⟨none, none, none⟩ initState
        "/broken" "/broken" (.appRoute "/broken" "ep1") none).state.readyIds :=
  c1_throwing_materialization_amended extId c1Env ⟨none, none, none⟩ initState
    "/broken" "/broken" (.appRoute "/broken" "ep1") none "ep1" errIssue rfl rfl
    (List.mem_singleton.mpr rfl) rfl (by decide)

end HotReloader
